import Mathlib

/-!
Verification of the Agent Task subsystem of the GitHub CLI repository.

Shallow embedding of:
* the node-identifier codec (pkg/cmd/agent-task/capi/sessions.go:
  generatePullRequestNodeID, generateUserNodeID),
* the session-list pagination loop and its truncation step,
* the hydration layer (hydrateSessionPullRequestsAndUsers),
* the session-state display vocabulary (pkg/cmd/agent-task/shared/display.go),
* job submission (pkg/cmd/agent-task/capi/job.go),
* the list-command empty-result handling (pkg/cmd/agent-task/list/list.go),
* the log renderer and its follow loop (pkg/cmd/agent-task/shared log renderer).

Machine integers: the Go code uses int64/uint64 database identifiers that are
non-negative in every observable execution (they are JSON-decoded database
IDs); they are embedded as Nat, with 64-bit bounds imposed as hypotheses in
the theorems where width matters.  Go `int` values that the code compares
against possibly negative limits are embedded as Int.  Timestamps are carried
as opaque strings (the code only copies or formats them).
-/

namespace AgentTask

/-! ### Session state vocabulary (shared/display.go and src/unnamed/part_012) -/

/-- Display-role of a terminal color function.  The Go code returns
`cs.Green`, `cs.Yellow`, `cs.Red` or `cs.Muted` from the iostreams color
scheme; only the choice of role is observable here. -/
inductive ColorRole
  | green
  | yellow
  | red
  | muted
deriving DecidableEq, Repr

/-- SessionStateString from src/unnamed/part_012 (package shared): the
state-string to display-string mapping. -/
def SessionStateString (state : String) : String :=
  if state = "queued" then "Queued"
  else if state = "in_progress" then "In Progress"
  else if state = "completed" then "Completed"
  else if state = "failed" then "Failed"
  else if state = "idle" then "Idle"
  else if state = "waiting_for_user" then "Waiting for User"
  else if state = "timed_out" then "Timed Out"
  else if state = "cancelled" then "Cancelled"
  else state

/-- ColorFuncForSessionState (shared/display.go), restricted to the state
string it switches on; the Session argument is only read for its State
field, and the returned closure is one of four color-scheme functions. -/
def colorRoleForSessionState (state : String) : ColorRole :=
  if state = "completed" then .green
  else if state = "canceled" then .muted
  else if state = "in_progress" ∨ state = "queued" then .yellow
  else if state = "failed" then .red
  else .muted

/-! ### Identifier codec (capi/sessions.go: generatePullRequestNodeID / generateUserNodeID)

The Go code serializes `[]int64{0, repoID, prDatabaseID}` (resp. `[]int64{0,
userID}`) with msgpack and `UseCompactInts(true)`, base64url-encodes the
bytes without padding, and prepends "PR_" (resp. "U_").  Bytes are embedded
as Nat values below 256. -/

/-- The URL-safe base64 alphabet used by Go's base64.RawURLEncoding. -/
def b64Alphabet : List Char :=
  "ABCDEFGHIJKLMNOPQRSTUVWXYZabcdefghijklmnopqrstuvwxyz0123456789-_".data

/-- Character for a six-bit group. -/
def b64Char (n : Nat) : Char := b64Alphabet.getD n 'A'

/-- Index of a character in the base64url alphabet (reference decoder side). -/
def b64Index (c : Char) : Option Nat := b64Alphabet.findIdx? (fun d => d == c)

/-- base64.RawURLEncoding.EncodeToString: three bytes become four characters;
a final group of one or two bytes becomes two or three characters and no
padding is emitted. -/
def base64urlEncode : List Nat → List Char
  | [] => []
  | [b0] => [b64Char (b0 / 4), b64Char (b0 % 4 * 16)]
  | [b0, b1] =>
      [b64Char (b0 / 4), b64Char (b0 % 4 * 16 + b1 / 16), b64Char (b1 % 16 * 4)]
  | b0 :: b1 :: b2 :: rest =>
      b64Char (b0 / 4) :: b64Char (b0 % 4 * 16 + b1 / 16) ::
        b64Char (b1 % 16 * 4 + b2 / 64) :: b64Char (b2 % 64) :: base64urlEncode rest

/-- Reference base64url decoder: inverse of the unpadded encoding.  A length
of 1 modulo 4 is not produced by the encoder and is rejected. -/
def base64urlDecode : List Char → Option (List Nat)
  | [] => some []
  | [c0, c1] =>
      match b64Index c0, b64Index c1 with
      | some a, some b => some [a * 4 + b / 16]
      | _, _ => none
  | [c0, c1, c2] =>
      match b64Index c0, b64Index c1, b64Index c2 with
      | some a, some b, some c => some [a * 4 + b / 16, b % 16 * 16 + c / 4]
      | _, _, _ => none
  | c0 :: c1 :: c2 :: c3 :: rest =>
      match b64Index c0, b64Index c1, b64Index c2, b64Index c3, base64urlDecode rest with
      | some a, some b, some c, some d, some tail =>
          some ((a * 4 + b / 16) :: (b % 16 * 16 + c / 4) :: (c % 4 * 64 + d) :: tail)
      | _, _, _, _, _ => none
  | _ => none

/-- msgpack encoding of one non-negative integer under UseCompactInts(true)
(the msgpack-go encoder picks the smallest of positive fixint, uint8,
uint16, uint32, uint64 for a non-negative int64). -/
def msgpackCompactUint (n : Nat) : List Nat :=
  if n ≤ 0x7f then [n]
  else if n ≤ 0xff then [0xcc, n]
  else if n ≤ 0xffff then [0xcd, n / 2 ^ 8 % 256, n % 256]
  else if n ≤ 0xffffffff then
    [0xce, n / 2 ^ 24 % 256, n / 2 ^ 16 % 256, n / 2 ^ 8 % 256, n % 256]
  else
    [0xcf, n / 2 ^ 56 % 256, n / 2 ^ 48 % 256, n / 2 ^ 40 % 256, n / 2 ^ 32 % 256,
      n / 2 ^ 24 % 256, n / 2 ^ 16 % 256, n / 2 ^ 8 % 256, n % 256]

/-- msgpack fixarray: header byte 0x90+len (the arrays here have 2 or 3
elements) followed by the element encodings. -/
def msgpackFixArray (elems : List (List Nat)) : List Nat :=
  (0x90 + elems.length) :: elems.foldr (fun a b => a ++ b) []

/-- Reference msgpack decoder for one compact unsigned integer; returns the
value and the remaining bytes. -/
def msgpackDecodeUint : List Nat → Option (Nat × List Nat)
  | [] => none
  | b :: rest =>
    if b ≤ 0x7f then some (b, rest)
    else if b = 0xcc then
      match rest with
      | c0 :: r => some (c0, r)
      | _ => none
    else if b = 0xcd then
      match rest with
      | c0 :: c1 :: r => some (c0 * 256 + c1, r)
      | _ => none
    else if b = 0xce then
      match rest with
      | c0 :: c1 :: c2 :: c3 :: r =>
          some (((c0 * 256 + c1) * 256 + c2) * 256 + c3, r)
      | _ => none
    else if b = 0xcf then
      match rest with
      | c0 :: c1 :: c2 :: c3 :: c4 :: c5 :: c6 :: c7 :: r =>
          some (((((((c0 * 256 + c1) * 256 + c2) * 256 + c3) * 256 + c4) * 256 + c5)
            * 256 + c6) * 256 + c7, r)
      | _ => none
    else none

/-- Reference decoder for a fixed count of consecutive compact unsigned
integers, requiring the byte list to be fully consumed. -/
def msgpackDecodeUints : Nat → List Nat → Option (List Nat)
  | 0, [] => some []
  | 0, _ :: _ => none
  | k + 1, bs =>
    match msgpackDecodeUint bs with
    | none => none
    | some (v, rest) =>
      match msgpackDecodeUints k rest with
      | none => none
      | some vs => some (v :: vs)

/-- Reference decoder for the node-identifier payload: a msgpack fixarray of
compact unsigned integers. -/
def decodeNodeIDBytes : List Nat → Option (List Nat)
  | [] => none
  | h :: rest =>
    if 0x90 ≤ h ∧ h ≤ 0x9f then msgpackDecodeUints (h - 0x90) rest else none

/-- generatePullRequestNodeID (capi/sessions.go): msgpack-encode
[0, repoID, pullRequestID] compactly, base64url without padding, prefix
"PR_". -/
def generatePullRequestNodeID (repoID pullRequestID : Nat) : String :=
  let buf := msgpackFixArray
    [msgpackCompactUint 0, msgpackCompactUint repoID, msgpackCompactUint pullRequestID]
  "PR_" ++ String.mk (base64urlEncode buf)

/-- generateUserNodeID (capi/sessions.go): msgpack-encode [0, userID]
compactly, base64url without padding, prefix "U_". -/
def generateUserNodeID (userID : Nat) : String :=
  let buf := msgpackFixArray [msgpackCompactUint 0, msgpackCompactUint userID]
  "U_" ++ String.mk (base64urlEncode buf)

/-- Reference decoder for a pull-request node identifier. -/
def decodePullRequestNodeID (s : String) : Option (List Nat) :=
  match s.data with
  | 'P' :: 'R' :: '_' :: cs =>
    match base64urlDecode cs with
    | some bytes => decodeNodeIDBytes bytes
    | none => none
  | _ => none

/-- Reference decoder for a user node identifier. -/
def decodeUserNodeID (s : String) : Option (List Nat) :=
  match s.data with
  | 'U' :: '_' :: cs =>
    match base64urlDecode cs with
    | some bytes => decodeNodeIDBytes bytes
    | none => none
  | _ => none

/-! ### Data model (capi/sessions.go, src/unnamed/part_014) -/

/-- The raw `session` JSON record decoded from the Copilot API. -/
structure RawSession where
  id : String
  name : String
  userID : Nat
  agentID : Nat
  logs : String
  state : String
  ownerID : Nat
  repoID : Nat
  resourceType : String
  resourceID : Nat
  lastUpdatedAt : String
  createdAt : String
  completedAt : String
  eventURL : String
  eventType : String
deriving DecidableEq, Repr

/-- A raw session with zero-valued fields, for concrete instances. -/
def blankRawSession : RawSession :=
  { id := "", name := "", userID := 0, agentID := 0, logs := "", state := ""
    ownerID := 0, repoID := 0, resourceType := "", resourceID := 0
    lastUpdatedAt := "", createdAt := "", completedAt := "", eventURL := "", eventType := "" }

/-- api.PRRepository as used by the hydration shim. -/
structure PRRepository where
  nameWithOwner : String
deriving DecidableEq, Repr

/-- The sessionPullRequest GraphQL shim (capi/sessions.go). -/
structure SessionPullRequest where
  id : String
  fullDatabaseID : String
  number : Nat
  title : String
  state : String
  url : String
  body : String
  isDraft : Bool
  createdAt : String
  updatedAt : String
  closedAt : Option String
  mergedAt : Option String
  repository : Option PRRepository
deriving DecidableEq, Repr

/-- The api.PullRequest fields populated by hydration. -/
structure PullRequest where
  id : String
  fullDatabaseID : String
  number : Nat
  title : String
  state : String
  isDraft : Bool
  url : String
  body : String
  createdAt : String
  updatedAt : String
  closedAt : Option String
  mergedAt : Option String
  repository : Option PRRepository
deriving DecidableEq, Repr

/-- api.GitHubUser fields used by hydration. -/
structure GitHubUser where
  login : String
  name : String
  databaseID : Nat
deriving DecidableEq, Repr

/-- The hydrated Session (capi/sessions.go type Session). -/
structure Session where
  id : String
  name : String
  userID : Nat
  agentID : Nat
  logs : String
  state : String
  ownerID : Nat
  repoID : Nat
  resourceType : String
  resourceID : Nat
  lastUpdatedAt : String
  createdAt : String
  completedAt : String
  eventURL : String
  eventType : String
  pullRequest : Option PullRequest
  user : Option GitHubUser
deriving DecidableEq, Repr

/-- A hydrated session with zero-valued fields, for concrete instances. -/
def blankSession : Session :=
  { id := "", name := "", userID := 0, agentID := 0, logs := "", state := ""
    ownerID := 0, repoID := 0, resourceType := "", resourceID := 0
    lastUpdatedAt := "", createdAt := "", completedAt := "", eventURL := "", eventType := ""
    pullRequest := none, user := none }

/-- fromAPISession (capi/sessions.go): value-copy of the scalar fields. -/
def fromAPISession (s : RawSession) : Session :=
  { id := s.id, name := s.name, userID := s.userID, agentID := s.agentID
    logs := s.logs, state := s.state, ownerID := s.ownerID, repoID := s.repoID
    resourceType := s.resourceType, resourceID := s.resourceID
    lastUpdatedAt := s.lastUpdatedAt, createdAt := s.createdAt
    completedAt := s.completedAt, eventURL := s.eventURL, eventType := s.eventType
    pullRequest := none, user := none }

/-! ### Hydration layer (hydrateSessionPullRequestsAndUsers, src/unnamed/part_014)

The GraphQL response is a parameter: a list of nodes, each either
pull-request-shaped, user-shaped, or of another type (the Go code switches
on `__typename` and ignores other type names). -/

/-- One node of the `nodes(ids:)` GraphQL response. -/
inductive RespNode
  | pullRequest (pr : SessionPullRequest)
  | user (u : GitHubUser)
  | other (typeName : String)
deriving DecidableEq, Repr

/-- The api.PullRequest value built from a response node
(hydrateSessionPullRequestsAndUsers, field-by-field copy). -/
def mkPullRequest (pr : SessionPullRequest) : PullRequest :=
  { id := pr.id, fullDatabaseID := pr.fullDatabaseID, number := pr.number
    title := pr.title, state := pr.state, isDraft := pr.isDraft, url := pr.url
    body := pr.body, createdAt := pr.createdAt, updatedAt := pr.updatedAt
    closedAt := pr.closedAt, mergedAt := pr.mergedAt, repository := pr.repository }

/-- The prMap insertion loop.  Go writes `prMap[key] = value` while walking
the nodes forward, so a later node shadows an earlier one with the same
FullDatabaseID; the association list below puts later nodes first and is
read with a first-match lookup. -/
def buildPRMap : List RespNode → List (String × PullRequest)
  | [] => []
  | .pullRequest pr :: rest => buildPRMap rest ++ [(pr.fullDatabaseID, mkPullRequest pr)]
  | _ :: rest => buildPRMap rest

/-- The userMap insertion loop, keyed by the user DatabaseID. -/
def buildUserMap : List RespNode → List (Nat × GitHubUser)
  | [] => []
  | .user u :: rest => buildUserMap rest ++ [(u.databaseID, u)]
  | _ :: rest => buildUserMap rest

/-- Go map read (`m[k]`, zero value = absent is modelled as none). -/
def lookup1 {α β : Type} [BEq α] (m : List (α × β)) (k : α) : Option β :=
  (m.find? (fun p => p.1 == k)).map (fun p => p.2)

/-- addUnique captures `if !slices.Contains(l, x) { l = append(l, x) }`. -/
def addUnique (l : List String) (x : String) : List String :=
  if x ∈ l then l else l ++ [x]

/-- The first pass of hydrateSessionPullRequestsAndUsers (src/unnamed/part_014
lines 338-352): walk the raw sessions once, collecting de-duplicated PR node
IDs for sessions with ResourceType == "pull" and de-duplicated user node IDs
for every session.  The Go range loop is expressed as recursion over the
session list with the two accumulators. -/
def collectGo : List RawSession → List String × List String → List String × List String
  | [], acc => acc
  | s :: rest, acc =>
    let acc1 :=
      if s.resourceType = "pull" then
        addUnique acc.1 (generatePullRequestNodeID s.repoID s.resourceID)
      else acc.1
    let acc2 := addUnique acc.2 (generateUserNodeID s.userID)
    collectGo rest (acc1, acc2)

/-- The two node-ID accumulators of the hydration first pass. -/
def collectNodeIDs (sessions : List RawSession) : List String × List String :=
  collectGo sessions ([], [])

/-- The id list sent to the single nodes(ids:) query:
`ids = append(prNodeIds, userNodeIds...)`. -/
def hydrationQueryIDs (sessions : List RawSession) : List String :=
  (collectNodeIDs sessions).1 ++ (collectNodeIDs sessions).2

/-- The join phase of hydrateSessionPullRequestsAndUsers given the GraphQL
response nodes: build the two maps, then emit one hydrated session per raw
session in input order, attaching `prMap[strconv.FormatInt(ResourceID, 10)]`
and `userMap[UserID]`.  An empty input returns nil without issuing a query. -/
def hydrateSessionPullRequestsAndUsers
    (sessions : List RawSession) (nodes : List RespNode) : List Session :=
  if sessions.isEmpty then []
  else
    let prMap := buildPRMap nodes
    let userMap := buildUserMap nodes
    sessions.map (fun s =>
      { fromAPISession s with
        pullRequest := lookup1 prMap (toString s.resourceID)
        user := lookup1 userMap s.userID })

/-! ### Session-list pagination (ListSessionsForViewer / ForRepo /
ByResourceID, src/unnamed/part_014)

The HTTP layer is a parameter: `pageFn n` is the server's response to the
request with `page_number=n` (and `page_size=50`).  The three operations
share the identical page loop, truncation, and hydration steps; the Go
source repeats that body verbatim in each of them, the model factors it
into `listSessionsCore`. -/

/-- defaultSessionsPerPage (capi/sessions.go). -/
def defaultSessionsPerPage : Nat := 50

/-- One page response: the HTTP status and, for a 200, the decoded
`sessions` array (none models a JSON decode failure). -/
structure PageResp where
  status : Nat
  decoded : Option (List RawSession)

/-- Result of the page loop, carrying the number of page requests issued. -/
inductive LoopOut
  | pages (acc : List RawSession) (requests : Nat)
  | failStatus (status : Nat) (requests : Nat)
  | failDecode (requests : Nat)
deriving DecidableEq

/-- The `for page := 1; ; page++` loop shared by the three list operations:
request a page; any non-200 status or decode failure aborts; otherwise
append the page and stop as soon as it is short (fewer than pageSize items)
or the accumulated count has reached `limit` (a Go int, possibly
negative). -/
def sessionsLoop (pageFn : Nat → PageResp) (limit : Int) (page : Nat)
    (acc : List RawSession) : LoopOut :=
  let resp := pageFn page
  if resp.status ≠ 200 then .failStatus resp.status 1
  else
    match resp.decoded with
    | none => .failDecode 1
    | some pageSessions =>
      let acc2 := acc ++ pageSessions
      if h : pageSessions.length < defaultSessionsPerPage ∨ limit ≤ (acc2.length : Int) then
        .pages acc2 1
      else
        match sessionsLoop pageFn limit (page + 1) acc2 with
        | .pages s r => .pages s (r + 1)
        | .failStatus st r => .failStatus st (r + 1)
        | .failDecode r => .failDecode (r + 1)
termination_by (limit - acc.length).toNat
decreasing_by
  unfold acc2 at h
  simp only [not_or, not_lt, not_le, defaultSessionsPerPage, List.length_append] at h ⊢
  omega

/-- Go slice expression `s[:n]` for an int bound: panics (none) when n is
negative or exceeds the length. -/
def goSliceTo {α : Type} (s : List α) (n : Int) : Option (List α) :=
  if n < 0 ∨ (s.length : Int) < n then none else some (s.take n.toNat)

/-- The truncation step `if len(sessions) > limit { sessions = sessions[:limit] }`. -/
def truncateToLimit (sessions : List RawSession) (limit : Int) : Option (List RawSession) :=
  if limit < (sessions.length : Int) then goSliceTo sessions limit else some sessions

/-- Outcome of a list operation.  `sliceOutOfRange` marks the Go runtime
panic raised by `sessions[:limit]` with an out-of-range bound;
`makeCapOutOfRange` the runtime panic raised by
`make([]session, 0, limit+pageSize)` with a negative capacity, before any
page request is issued. -/
inductive ListOutcome
  | ok (sessions : List Session) (requests : Nat)
  | errInvalidArgs
  | errStatus (status : Nat) (requests : Nat)
  | errDecode (requests : Nat)
  | errHydrate (requests : Nat)
  | sliceOutOfRange (requests : Nat)
  | makeCapOutOfRange
deriving DecidableEq

/-- The body shared verbatim by the three list operations: the `limit == 0`
early return, the `make([]session, 0, limit+pageSize)` allocation — a Go
`make` panics when its capacity is negative, which happens exactly when
limit < -pageSize, before the first page request (int64 overflow of
limit+pageSize is not modelled; it needs limit within 50 of the int64
maximum) — then the page loop, the truncation, and hydration.  `gql` is
the response to the single hydration query (none models a query error). -/
def listSessionsCore (pageFn : Nat → PageResp) (gql : Option (List RespNode))
    (limit : Int) : ListOutcome :=
  if limit = 0 then .ok [] 0
  else if limit + (defaultSessionsPerPage : Int) < 0 then .makeCapOutOfRange
  else
    match sessionsLoop pageFn limit 1 [] with
    | .failStatus st r => .errStatus st r
    | .failDecode r => .errDecode r
    | .pages acc r =>
      match truncateToLimit acc limit with
      | none => .sliceOutOfRange r
      | some truncated =>
        match gql with
        | none => .errHydrate r
        | some nodes => .ok (hydrateSessionPullRequestsAndUsers truncated nodes) r

/-- ListSessionsForViewer (src/unnamed/part_014 lines 91-144). -/
def ListSessionsForViewer (pageFn : Nat → PageResp) (gql : Option (List RespNode))
    (limit : Int) : ListOutcome :=
  listSessionsCore pageFn gql limit

/-- ListSessionsForRepo (src/unnamed/part_014 lines 147-203): requires
non-empty owner and repo, then the identical body. -/
def ListSessionsForRepo (owner repo : String) (pageFn : Nat → PageResp)
    (gql : Option (List RespNode)) (limit : Int) : ListOutcome :=
  if owner = "" ∨ repo = "" then .errInvalidArgs
  else listSessionsCore pageFn gql limit

/-- ListSessionsByResourceID (src/unnamed/part_014 lines 274-330): requires
a non-empty resource type and non-zero resource ID, then the identical
body. -/
def ListSessionsByResourceID (resourceType : String) (resourceID : Nat)
    (pageFn : Nat → PageResp) (gql : Option (List RespNode)) (limit : Int) : ListOutcome :=
  if resourceType = "" ∨ resourceID = 0 then .errInvalidArgs
  else listSessionsCore pageFn gql limit

/-- The well-behaved server used for the pagination theorems: it holds
`all` sessions and serves page n as `all[(n-1)*50 : n*50]`. -/
def serverPages (all : List RawSession) (page : Nat) : PageResp :=
  { status := 200
    decoded := some ((all.drop ((page - 1) * defaultSessionsPerPage)).take defaultSessionsPerPage) }

/-- Number of page requests the loop issues against a server holding
`total` sessions, with the given positive `limit`, from a state where
`consumed` sessions (a multiple of 50) were already fetched (the amended
request-count formula of the pagination claim, pageSize = 50): while the
limit is reachable it is the ceiling of the remaining need, otherwise one
request per remaining full page plus the final short (possibly empty)
probe page. -/
def paginationRequests (total limit consumed : Nat) : Nat :=
  if limit ≤ total then (limit - consumed + 49) / 50
  else (total - consumed) / 50 + 1

/-! ### GetSession and GetSessionLogs (src/unnamed/part_014 lines 206-271) -/

/-- HTTP response for the single-session endpoint. -/
structure SessionResp where
  status : Nat
  decoded : Option RawSession

/-- Result of GetSession.  `sessionNotFound` is the ErrSessionNotFound
sentinel value; the other error constructors are distinct ordinary errors. -/
inductive GetSessionResult
  | ok (s : Session)
  | sessionNotFound
  | errMissingID
  | errStatus (status : Nat)
  | errDecode
  | errHydrate
deriving DecidableEq

/-- GetSession: reject an empty ID, map a 404 to the ErrSessionNotFound
sentinel, surface any other non-200 with its status, decode, hydrate the
one-element list and return its head.  The final match's empty branch is
unreachable because hydration of a one-element list yields one element. -/
def GetSession (id : String) (resp : SessionResp) (gql : Option (List RespNode)) :
    GetSessionResult :=
  if id = "" then .errMissingID
  else if resp.status ≠ 200 then
    if resp.status = 404 then .sessionNotFound else .errStatus resp.status
  else
    match resp.decoded with
    | none => .errDecode
    | some raw =>
      match gql with
      | none => .errHydrate
      | some nodes =>
        match hydrateSessionPullRequestsAndUsers [raw] nodes with
        | s :: _ => .ok s
        | [] => .errHydrate

/-- HTTP response for the session-logs endpoint: status and raw body. -/
structure LogsResp where
  status : Nat
  body : String

/-- Result of GetSessionLogs. -/
inductive GetLogsResult
  | ok (body : String)
  | sessionNotFound
  | errMissingID
  | errStatus (status : Nat)
deriving DecidableEq

/-- GetSessionLogs: reject an empty ID, map a 404 to the sentinel, surface
other non-200 statuses, else return the raw body. -/
def GetSessionLogs (id : String) (resp : LogsResp) : GetLogsResult :=
  if id = "" then .errMissingID
  else if resp.status ≠ 200 then
    if resp.status = 404 then .sessionNotFound else .errStatus resp.status
  else .ok resp.body

/-! ### Job submission (capi/job.go CreateJob) -/

/-- defaultEventType (capi/job.go). -/
def defaultEventType : String := "gh_cli"

/-- The JSON request body assembled by CreateJob: the problem statement, the
constant event-type tag, and (for the base-branch-aware variant) the
optional pull_request.base_ref field. -/
structure CreateJobBody where
  problemStatement : String
  eventType : String
  pullRequestBaseRef : Option String
deriving DecidableEq, Repr

/-- Outcome of the request-construction phase of CreateJob: either the body
that is POSTed, or a validation error returned before any request is made. -/
inductive CreateJobOutcome
  | request (body : CreateJobBody)
  | errMissingOwnerRepo
  | errMissingProblem
deriving DecidableEq, Repr

/-- Modelled from the spec: the base-branch handling of job creation.  The
repository's create command and its tests call a four-argument CreateJob
that also receives a base branch, but that variant's body construction is
not in the corpus (capi/job.go holds only the three-argument version);
section 4.2 of the specification states that "when a base branch was
supplied, the ref refs/heads/{branch}" is carried "under a
pull_request.base_ref field". -/
def createJobBaseRef (baseBranch : String) : Option String :=
  if baseBranch = "" then none else some ("refs/heads/" ++ baseBranch)

/-- CreateJob (capi/job.go lines 55-98): validate owner, repo and the
problem statement before issuing any request, then POST a body carrying the
problem statement and the constant event-type tag — extended with the
spec-modelled base_ref field for the base-branch-aware variant (an empty
base branch leaves the field absent, matching the three-argument body). -/
def CreateJob (owner repo problemStatement baseBranch : String) : CreateJobOutcome :=
  if owner = "" ∨ repo = "" then .errMissingOwnerRepo
  else if problemStatement = "" then .errMissingProblem
  else .request
    { problemStatement := problemStatement
      eventType := defaultEventType
      pullRequestBaseRef := createJobBaseRef baseBranch }

/-! ### List command empty-result handling (listRun) -/

/-- How a listRun invocation ends: ordinary success, or the
cmdutil.NewNoResultsError no-results condition. -/
inductive RunOutcome
  | ok
  | noResults (msg : String)
deriving DecidableEq, Repr

/-- Observable result of listRun: the lines written to stdout and the
returned outcome. -/
structure ListRunResult where
  stdout : List String
  outcome : RunOutcome
deriving DecidableEq, Repr

/-- One table row (non-TTY branch: plain fields, RFC3339 timestamp carried
as the stored string).  Sessions without a pull-request payload are
skipped: `s.ResourceType != "pull" || s.PullRequest == nil ||
s.PullRequest.Repository == nil`. -/
def sessionRow (s : Session) : Option (List String) :=
  if s.resourceType ≠ "pull" then none
  else
    match s.pullRequest with
    | none => none
    | some pr =>
      match pr.repository with
      | none => none
      | some repo =>
        some [s.id, "#" ++ toString pr.number, repo.nameWithOwner, s.state, s.createdAt]

/-- The rendered table body. -/
def sessionTable (sessions : List Session) : List String :=
  (sessions.filterMap sessionRow).map (fun row => String.intercalate "\t" row)

/-- listRun after the sessions were fetched, as in
src/pkg/cmd/agent-task/list/list.go lines 107-110 and src/unnamed/part_005
lines 81-84: an empty result prints "no agent tasks found" on stdout and
returns nil (success). -/
def listRunOnSessions (sessions : List Session) : ListRunResult :=
  if sessions.isEmpty then { stdout := ["no agent tasks found"], outcome := .ok }
  else { stdout := sessionTable sessions, outcome := .ok }

/-- The newer listRun variant embedded in src/script/gen-winres.ps1: an
empty result returns cmdutil.NewNoResultsError("no agent tasks found") and
writes nothing to stdout. -/
def listRunOnSessionsNoResults (sessions : List Session) : ListRunResult :=
  if sessions.isEmpty then { stdout := [], outcome := .noResults "no agent tasks found" }
  else { stdout := sessionTable sessions, outcome := .ok }

/-! ### Log renderer (src/unnamed/part_009, package shared)

The renderer consumes a line-delimited stream of server-sent-event records.
The embedding works at line granularity: a `LogLine` is a blank line, a
line without the `data: ` prefix, or a data line together with the result
of JSON-unmarshalling its payload (none = unmarshal failure).  Tool-call
arguments are carried in already-parsed form: `ToolArgs.mismatched` stands
for an arguments string that does not unmarshal into the argument struct
the dispatch arm expects (the per-arm json.Unmarshal failure). -/

/-- Parsed tool-call arguments, one constructor per argument struct. -/
inductive ToolArgs
  | runSetup (name : String)
  | bash (command description : String)
  | view (path : String)
  | think (sessionID thought : String)
  | reportProgress (commitMessage prDescription : String)
  | create (fileText path : String)
  | strReplace (newStr oldStr path : String)
  | generic
  | mismatched
deriving DecidableEq, Repr

/-- The function object of a tool call: its name and arguments. -/
structure ToolFunction where
  name : String
  args : ToolArgs
deriving DecidableEq, Repr

/-- One element of delta.tool_calls. -/
structure ToolCall where
  function : ToolFunction
  index : Nat
  id : String
deriving DecidableEq, Repr

/-- choices[].delta of a chat-completion chunk. -/
structure Delta where
  reasoningText : String
  content : String
  role : String
  toolCalls : List ToolCall
deriving DecidableEq, Repr

/-- One choice of a chunk. -/
structure Choice where
  delta : Delta
  finishReason : String
  index : Nat
deriving DecidableEq, Repr

/-- A chat-completion chunk entry (chatCompletionChunkEntry). -/
structure ChunkEntry where
  id : String
  created : Nat
  model : String
  object : String
  choices : List Choice
deriving DecidableEq, Repr

/-- Observable output tokens of the renderer.  `markdown` is a
renderRawMarkdown block, `toolCall` a renderToolCall header line,
`viewHeader` the direct "View path" line, `fileContent` a
renderFileContentAsMarkdown code block, and `jsonContent` a
renderContentAsJSONMarkdown block (emitted as JSON exactly when the content
parses as JSON; that external parse is absorbed into the token). -/
inductive RenderEvent
  | markdown (text : String)
  | toolCall (descriptor title : String)
  | viewHeader (path : String)
  | fileContent (path content : String)
  | jsonContent (content : String)
deriving DecidableEq, Repr

/-- relativePath: strip the build-agent working-copy root, drop the owner
and repo segments, else fall back to the literal "repository". -/
def relativePath (absPath : String) : String :=
  let relPath :=
    if "/home/runner/work/".isPrefixOf absPath then
      absPath.drop "/home/runner/work/".length
    else absPath
  let parts := relPath.splitOn "/"
  if parts.length > 2 then String.intercalate "/" (parts.drop 2)
  else "repository"

/-- renderGenericToolCall: the three known generic titles, else "Call to
name". -/
def genericToolTitle (name : String) : String :=
  match name with
  | "codeql_checker" => "Run CodeQL analysis"
  | "github-mcp-server-list_issues" => "List issues on GitHub"
  | "github-mcp-server-list_pull_requests" => "List pull requests on GitHub"
  | _ => "Call to " ++ name

/-- The dispatch on function.name inside renderLogEntry, for one tool call
whose name is non-empty.  run_setup and bash silently skip a failed
argument parse (the nil-check pattern); view, think, report_progress,
create and str_replace return an error on a failed parse. -/
def oneToolCall (name : String) (args : ToolArgs) (content : String) :
    Except String (List RenderEvent) :=
  match name with
  | "run_setup" =>
    match args with
    | .runSetup n => .ok [.toolCall ("Start " ++ n ++ " MCP server") ""]
    | _ => .ok []
  | "view" =>
    match args with
    | .view path => .ok [.viewHeader (relativePath path), .fileContent "output.diff" content]
    | _ => .error "failed to parse view tool call arguments"
  | "bash" =>
    match args with
    | .bash command description =>
      let header :=
        if description ≠ "" then RenderEvent.toolCall "Bash" description
        else RenderEvent.toolCall "Run Bash command" ""
      let contentWithCommand :=
        if command ≠ "" then command ++ "\n" ++ content else content
      .ok [header, .fileContent "commands.sh" contentWithCommand]
    | _ => .ok []
  | "think" =>
    match args with
    | .think _ thought => .ok [.toolCall "Thought" "", .markdown thought]
    | _ => .error "failed to parse think tool call arguments"
  | "report_progress" =>
    match args with
    | .reportProgress commitMessage prDescription =>
      .ok ([.toolCall "Progress update" commitMessage]
        ++ (if prDescription ≠ "" then [RenderEvent.markdown prDescription] else [])
        ++ (if content ≠ "" then [RenderEvent.jsonContent content] else []))
    | _ => .error "failed to parse report_progress tool call arguments"
  | "create" =>
    match args with
    | .create fileText path =>
      .ok [.toolCall "Create" (relativePath path), .fileContent path fileText]
    | _ => .error "failed to parse create tool call arguments"
  | "str_replace" =>
    match args with
    | .strReplace _ _ path =>
      .ok [.toolCall "Edit" (relativePath path), .fileContent "output.diff" content]
    | _ => .error "failed to parse str_replace tool call arguments"
  | _ => .ok [.toolCall (genericToolTitle name) "", .jsonContent content]

/-- The loop over delta.tool_calls: skip unnamed calls; stop at the first
erroring call, keeping the events of the earlier ones. -/
def toolCallsEvents : List ToolCall → String → List RenderEvent × Option String
  | [], _ => ([], none)
  | tc :: rest, content =>
    if tc.function.name = "" then toolCallsEvents rest content
    else
      match oneToolCall tc.function.name tc.function.args content with
      | .error msg => ([], some msg)
      | .ok evs =>
        let r := toolCallsEvents rest content
        (evs ++ r.1, r.2)

/-- Per-choice rendering of renderLogEntry: a choice without tool calls
renders its content as markdown when it is a non-empty assistant message; a
choice with tool calls is only processed when content is non-empty (the
finished-tool signal), rendering reasoning_text first. -/
def choiceEvents (c : Choice) : List RenderEvent × Option String :=
  if c.delta.toolCalls.isEmpty then
    (if c.delta.content ≠ "" ∧ c.delta.role = "assistant"
      then [RenderEvent.markdown c.delta.content] else [], none)
  else if c.delta.content = "" then ([], none)
  else
    let pre :=
      if c.delta.reasoningText ≠ "" then [RenderEvent.markdown c.delta.reasoningText] else []
    let r := toolCallsEvents c.delta.toolCalls c.delta.content
    (pre ++ r.1, r.2)

/-- Outcome of renderLogEntry: the emitted events together with the stop
flag, or the events emitted before an error. -/
inductive EntryResult
  | done (events : List RenderEvent) (stop : Bool)
  | failed (events : List RenderEvent) (msg : String)
deriving DecidableEq, Repr

/-- The choice loop of renderLogEntry: stop is latched by any choice whose
finish_reason is "stop"; an error aborts the remaining choices but keeps
the events already written. -/
def renderChoices : List Choice → Bool → EntryResult
  | [], stop => .done [] stop
  | c :: rest, stop =>
    match choiceEvents c with
    | (evs, some m) => .failed evs m
    | (evs, none) =>
      match renderChoices rest (stop || (c.finishReason == "stop")) with
      | .done evs2 st => .done (evs ++ evs2) st
      | .failed evs2 m => .failed (evs ++ evs2) m

/-- One line of the log stream.  `dataLine none` models a data line whose
JSON payload fails to unmarshal. -/
inductive LogLine
  | blank
  | noData (text : String)
  | dataLine (entry : Option ChunkEntry)
deriving DecidableEq

/-- Render (src/unnamed/part_009 lines 53-84): split into lines, delete
blank lines (inlined here as a skip), fail on a line without the `data: `
prefix, skip entries that do not unmarshal or whose object is not
"chat.completion.chunk", and return early — with stop = true — as soon as a
rendered entry reports the stop signal.  The emitted events are returned
alongside the verdict (they were written to `w` before any error). -/
def renderLines : List LogLine → List RenderEvent × Except String Bool
  | [] => ([], .ok false)
  | .blank :: rest => renderLines rest
  | .noData _ :: _ => ([], .error "unexpected log format")
  | .dataLine none :: rest => renderLines rest
  | .dataLine (some e) :: rest =>
    if e.object ≠ "chat.completion.chunk" then renderLines rest
    else
      match renderChoices e.choices false with
      | .failed evs m => (evs, .error ("failed to process log entry: " ++ m))
      | .done evs stop =>
        if stop then (evs, .ok true)
        else
          let r := renderLines rest
          (evs ++ r.1, r.2)

/-- Outcome of the follow loop over a finite list of fetch results:
`finished` (stop signal seen), `failed` (fetcher or render error), or
`stillRunning` when the supplied fetches were exhausted without either (the
Go loop would keep polling). -/
inductive FollowOutcome
  | finished (events : List RenderEvent)
  | failed (events : List RenderEvent) (msg : String)
  | stillRunning (events : List RenderEvent) (last : List LogLine)
deriving DecidableEq

/-- Follow (src/unnamed/part_009 lines 28-51), driven by the successive
fetcher results.  A fetch equal to the last-seen content is skipped; the
unseen suffix — `logs[len(last):]` after TrimSpace, taken here at line
granularity since the loop's contract is that the server re-sends the full
history and appends whole records (the trimmed blank separators are deleted
by Render anyway) — is rendered; a render stop ends the loop, a fetch or
render error ends it with that error. -/
def Follow : List (Except String (List LogLine)) → List LogLine → FollowOutcome
  | [], last => .stillRunning [] last
  | .error msg :: _, _ => .failed [] msg
  | .ok logs :: rest, last =>
    if logs = last then Follow rest last
    else
      let diff := logs.drop last.length
      match renderLines diff with
      | (evs, .error m) => .failed evs m
      | (evs, .ok true) => .finished evs
      | (evs, .ok false) =>
        match Follow rest logs with
        | .finished evs2 => .finished (evs ++ evs2)
        | .failed evs2 m => .failed (evs ++ evs2) m
        | .stillRunning evs2 l => .stillRunning (evs ++ evs2) l

/-! Trace helpers used to state the follow-loop theorem. -/

/-- The events of an entry result, regardless of verdict. -/
def entryResultEvents : EntryResult → List RenderEvent
  | .done evs _ => evs
  | .failed evs _ => evs

/-- The events one log line contributes when rendered. -/
def lineEvents : LogLine → List RenderEvent
  | .dataLine (some e) =>
    if e.object = "chat.completion.chunk" then entryResultEvents (renderChoices e.choices false)
    else []
  | _ => []

/-- A line the renderer handles without error: any line except a
prefix-less one or a chunk entry whose rendering fails. -/
def lineOk : LogLine → Bool
  | .blank => true
  | .noData _ => false
  | .dataLine none => true
  | .dataLine (some e) =>
    if e.object = "chat.completion.chunk" then
      match renderChoices e.choices false with
      | .done _ _ => true
      | .failed _ _ => false
    else true

/-- A line that carries the end-of-stream signal: a well-typed chunk entry
with some choice whose finish_reason is "stop". -/
def stopLine : LogLine → Bool
  | .dataLine (some e) =>
    e.object == "chat.completion.chunk"
      && e.choices.any (fun c => c.finishReason == "stop")
  | _ => false

/-- Concatenated one-shot trace of a list of lines. -/
def linesEvents : List LogLine → List RenderEvent
  | [] => []
  | l :: rest => lineEvents l ++ linesEvents rest

/-- The stream up to and including its first stop line (the whole stream
when no stop line occurs). -/
def upToStop : List LogLine → List LogLine
  | [] => []
  | l :: rest => if stopLine l then [l] else l :: upToStop rest

/-- Concrete session and response node used by the hydration-join witness. -/
def c4Session : RawSession :=
  { blankRawSession with resourceType := "pull", resourceID := 7, userID := 3 }

/-- The PR node of the hydration-join witness. -/
def c4PR : SessionPullRequest :=
  { id := "PRNODE", fullDatabaseID := "7", number := 42, title := "t"
    state := "OPEN", url := "", body := "", isDraft := false, createdAt := ""
    updatedAt := "", closedAt := none, mergedAt := none, repository := none }

/-- A PR response node whose FullDatabaseID matches c4Session. -/
def c4Node : RespNode := .pullRequest c4PR

/-- The delta of the follow-loop witness record. -/
def sampleStopDelta : Delta :=
  { reasoningText := "", content := "hi", role := "assistant", toolCalls := [] }

/-- The single choice of the follow-loop witness record, carrying the stop
signal. -/
def sampleStopChoice : Choice :=
  { delta := sampleStopDelta, finishReason := "stop", index := 0 }

/-- A chat-completion chunk carrying an assistant message and the stop
signal, used by the follow-loop witness. -/
def sampleStopEntry : ChunkEntry :=
  { id := "", created := 0, model := "", object := "chat.completion.chunk"
    choices := [sampleStopChoice] }

/-- A one-fetch log stream for the follow-loop witness. -/
def sampleStream : List (List LogLine) := [[LogLine.dataLine (some sampleStopEntry)]]

/-! ## Theorems -/

/-! ### C5: session-state display mapping -/

/-- C5 counterexample: the claim asserts that both "canceled" and
"cancelled" map to the display string "Canceled"; on the code, "cancelled"
maps to "Cancelled" (double l) and "canceled" is not a case of
SessionStateString at all, passing through verbatim. -/
theorem sessionState_canceled_counterexample :
    SessionStateString "cancelled" = "Cancelled" ∧
    SessionStateString "canceled" = "canceled" ∧
    ("Cancelled" : String) ≠ "Canceled" ∧ ("canceled" : String) ≠ "Canceled" := by
  refine ⟨by decide, by decide, by decide, by decide⟩

/-- C5 (amended): the display mapping sends queued, in_progress, completed,
failed, idle, waiting_for_user, timed_out and cancelled to their documented
display strings, except that "cancelled" displays as "Cancelled" and
"canceled" (single l) is not a recognized case and passes through verbatim;
the color mapping sends completed to the success role, queued and
in_progress to the warning role, failed to the error role, and canceled —
and by fallback cancelled, idle, waiting_for_user, timed_out and every
unknown state — to the muted role; every state unknown to the display
mapping passes through verbatim. -/
theorem sessionState_vocabulary (state : String)
    (h : state ∉ (["queued", "in_progress", "completed", "failed", "idle",
      "waiting_for_user", "timed_out", "cancelled", "canceled"] : List String)) :
    SessionStateString "queued" = "Queued" ∧
    SessionStateString "in_progress" = "In Progress" ∧
    SessionStateString "completed" = "Completed" ∧
    SessionStateString "failed" = "Failed" ∧
    SessionStateString "idle" = "Idle" ∧
    SessionStateString "waiting_for_user" = "Waiting for User" ∧
    SessionStateString "timed_out" = "Timed Out" ∧
    SessionStateString "cancelled" = "Cancelled" ∧
    SessionStateString "canceled" = "canceled" ∧
    SessionStateString state = state ∧
    colorRoleForSessionState "completed" = .green ∧
    colorRoleForSessionState "queued" = .yellow ∧
    colorRoleForSessionState "in_progress" = .yellow ∧
    colorRoleForSessionState "failed" = .red ∧
    colorRoleForSessionState "canceled" = .muted ∧
    colorRoleForSessionState "cancelled" = .muted ∧
    colorRoleForSessionState "idle" = .muted ∧
    colorRoleForSessionState "waiting_for_user" = .muted ∧
    colorRoleForSessionState "timed_out" = .muted ∧
    colorRoleForSessionState state = .muted := by
  simp only [List.mem_cons, List.not_mem_nil, or_false, not_or] at h
  obtain ⟨h1, h2, h3, h4, h5, h6, h7, h8, h9⟩ := h
  refine ⟨by decide, by decide, by decide, by decide, by decide, by decide, by decide,
    by decide, by decide, ?_, by decide, by decide, by decide, by decide, by decide,
    by decide, by decide, by decide, by decide, ?_⟩
  · simp [SessionStateString, h1, h2, h3, h4, h5, h6, h7, h8]
  · simp [colorRoleForSessionState, h1, h2, h3, h4, h9]

/-- Witness for the amended C5 theorem at the unknown state "mystery". -/
theorem sessionState_vocabulary_witness :
    "mystery" ∉ (["queued", "in_progress", "completed", "failed", "idle",
      "waiting_for_user", "timed_out", "cancelled", "canceled"] : List String) ∧
    SessionStateString "mystery" = "mystery" ∧
    colorRoleForSessionState "mystery" = .muted := by
  refine ⟨by decide, ((sessionState_vocabulary "mystery" (by decide)).2.2.2.2.2.2.2.2.2).1,
    (sessionState_vocabulary "mystery" (by decide)).2.2.2.2.2.2.2.2.2.2.2.2.2.2.2.2.2.2.2⟩

/-! ### C8: list command empty-result handling -/

/-- C8 counterexample: the claim asserts that an empty session list
produces no stdout and a failing no-results condition; the listRun the
claim cites (list/list.go lines 107-110, src/unnamed/part_005 lines 81-84)
prints "no agent tasks found" on stdout and returns nil, i.e. exits
successfully. -/
theorem listRun_empty_counterexample :
    listRunOnSessions [] = { stdout := ["no agent tasks found"], outcome := .ok } ∧
    RunOutcome.ok ≠ .noResults "no agent tasks found" := by
  exact ⟨by decide, by decide⟩

/-- C8 (amended): on an empty session list, the listRun variant the claim
cites prints "no agent tasks found" on stdout and returns success, while
the newer variant embedded in src/script/gen-winres.ps1 writes nothing to
stdout and returns the cmdutil no-results error, which is distinguishable
from success. -/
theorem listRun_empty_amended :
    listRunOnSessions [] = { stdout := ["no agent tasks found"], outcome := .ok } ∧
    listRunOnSessionsNoResults []
      = { stdout := [], outcome := .noResults "no agent tasks found" } ∧
    RunOutcome.noResults "no agent tasks found" ≠ .ok := by
  exact ⟨by decide, by decide, by decide⟩

/-! ### C6: job-submission request body -/

/-- C6: with non-empty owner, repo and problem statement, CreateJob issues
a request whose body carries the problem statement, the constant CLI
event-type tag "gh_cli", and — whenever a non-empty base branch is
supplied — the ref "refs/heads/{branch}" in the pull_request.base_ref
field (absent for an empty base branch); with an empty owner, repo or
problem statement no request is issued.  The base-branch field is the
spec-modelled part of the body (see createJobBaseRef). -/
theorem createJob_contract (owner repo problem base : String)
    (ho : owner ≠ "") (hr : repo ≠ "") (hp : problem ≠ "") :
    (∃ body, CreateJob owner repo problem base = .request body ∧
      body.problemStatement = problem ∧
      body.eventType = "gh_cli" ∧
      (base ≠ "" → body.pullRequestBaseRef = some ("refs/heads/" ++ base)) ∧
      (base = "" → body.pullRequestBaseRef = none)) ∧
    (∀ o r p b body, (o = "" ∨ r = "" ∨ p = "") → CreateJob o r p b ≠ .request body) := by
  constructor
  · have hbody : CreateJob owner repo problem base =
        .request { problemStatement := problem, eventType := defaultEventType,
                   pullRequestBaseRef := createJobBaseRef base } := by
      simp [CreateJob, ho, hr, hp]
    refine ⟨_, hbody, rfl, rfl, ?_, ?_⟩
    · intro hb
      simp [createJobBaseRef, hb]
    · intro hb
      simp [createJobBaseRef, hb]
  · rintro o r p b body hor heq
    unfold CreateJob at heq
    split_ifs at heq with g1 g2
    · push_neg at g1
      rcases hor with h | h | h
      · exact g1.1 h
      · exact g1.2 h
      · exact g2 h

/-- Witness for C6 at owner "OWNER", repo "REPO", problem "Fix the bug",
base branch "feature". -/
theorem createJob_contract_witness :
    ("OWNER" : String) ≠ "" ∧ ("REPO" : String) ≠ "" ∧ ("Fix the bug" : String) ≠ "" ∧
    ((∃ body, CreateJob "OWNER" "REPO" "Fix the bug" "feature" = .request body ∧
      body.problemStatement = "Fix the bug" ∧
      body.eventType = "gh_cli" ∧
      (("feature" : String) ≠ "" → body.pullRequestBaseRef = some ("refs/heads/" ++ "feature")) ∧
      (("feature" : String) = "" → body.pullRequestBaseRef = none)) ∧
    (∀ o r p b body, (o = "" ∨ r = "" ∨ p = "") → CreateJob o r p b ≠ .request body)) :=
  ⟨by decide, by decide, by decide,
    createJob_contract "OWNER" "REPO" "Fix the bug" "feature" (by decide) (by decide) (by decide)⟩

/-! ### C3: hydration first pass (node-ID collection) -/

theorem addUnique_mem (l : List String) (x y : String) :
    y ∈ addUnique l x ↔ y ∈ l ∨ y = x := by
  unfold addUnique
  split_ifs with hx
  · constructor
    · exact Or.inl
    · rintro (h | rfl)
      · exact h
      · exact hx
  · simp [List.mem_append]

theorem addUnique_nodup (l : List String) (x : String) (h : l.Nodup) :
    (addUnique l x).Nodup := by
  unfold addUnique
  split_ifs with hx
  · exact h
  · simp [List.nodup_append, h, hx]

theorem collectGo_fst_mem (sessions : List RawSession)
    (acc : List String × List String) (x : String) :
    x ∈ (collectGo sessions acc).1 ↔
      x ∈ acc.1 ∨ ∃ s ∈ sessions, s.resourceType = "pull" ∧
        x = generatePullRequestNodeID s.repoID s.resourceID := by
  induction sessions generalizing acc with
  | nil => simp [collectGo]
  | cons s rest ih =>
    unfold collectGo
    rw [ih]
    by_cases hp : s.resourceType = "pull" <;>
      simp [hp, addUnique_mem] <;> tauto

theorem collectGo_snd_mem (sessions : List RawSession)
    (acc : List String × List String) (x : String) :
    x ∈ (collectGo sessions acc).2 ↔
      x ∈ acc.2 ∨ ∃ s ∈ sessions, x = generateUserNodeID s.userID := by
  induction sessions generalizing acc with
  | nil => simp [collectGo]
  | cons s rest ih =>
    unfold collectGo
    rw [ih]
    simp [addUnique_mem]
    tauto

theorem collectGo_nodup (sessions : List RawSession)
    (acc : List String × List String) (h1 : acc.1.Nodup) (h2 : acc.2.Nodup) :
    (collectGo sessions acc).1.Nodup ∧ (collectGo sessions acc).2.Nodup := by
  induction sessions generalizing acc with
  | nil => exact ⟨h1, h2⟩
  | cons s rest ih =>
    unfold collectGo
    refine ih _ ?_ ?_
    · by_cases hp : s.resourceType = "pull"
      · simp only [hp, if_pos]
        exact addUnique_nodup _ _ h1
      · simpa [hp] using h1
    · exact addUnique_nodup _ _ h2

theorem generatePullRequestNodeID_headChar (r p : Nat) :
    (generatePullRequestNodeID r p).data.head? = some 'P' := by
  unfold generatePullRequestNodeID
  rw [String.data_append]
  rfl

theorem generateUserNodeID_headChar (u : Nat) :
    (generateUserNodeID u).data.head? = some 'U' := by
  unfold generateUserNodeID
  rw [String.data_append]
  rfl

theorem generate_nodeIDs_distinct (r p u : Nat) :
    generatePullRequestNodeID r p ≠ generateUserNodeID u := by
  intro h
  have hh := congrArg (fun s => s.data.head?) h
  simp only [generatePullRequestNodeID_headChar, generateUserNodeID_headChar] at hh
  exact absurd (Option.some.inj hh) (by decide)

/-- C3 counterexample: the claim asserts that a PR node ID is collected
only when ResourceType == "pull" and RepoID != 0, and a user node ID only
when UserID != 0; for the single session with ResourceType = "pull",
RepoID = 0 and UserID = 0 the code nevertheless collects both node IDs. -/
theorem collectNodeIDs_counterexample :
    collectNodeIDs [{ blankRawSession with
        resourceType := "pull", repoID := 0, resourceID := 5, userID := 0 }] =
      ([generatePullRequestNodeID 0 5], [generateUserNodeID 0]) ∧
    [generatePullRequestNodeID 0 5] ≠ ([] : List String) ∧
    [generateUserNodeID 0] ≠ ([] : List String) := by
  exact ⟨by decide, by decide, by decide⟩

/-- C3 (amended): the first hydration pass collects PR node IDs for exactly
the sessions with ResourceType == "pull" — regardless of RepoID — and user
node IDs for every session — regardless of UserID; both accumulators are
de-duplicated, and the id set of the single nodes(ids:) query equals
exactly the union of the two de-duplicated sets. -/
theorem hydrationQueryIDs_spec (sessions : List RawSession) :
    (hydrationQueryIDs sessions).Nodup ∧
    ∀ x, x ∈ hydrationQueryIDs sessions ↔
      ((∃ s ∈ sessions, s.resourceType = "pull" ∧
          x = generatePullRequestNodeID s.repoID s.resourceID) ∨
        ∃ s ∈ sessions, x = generateUserNodeID s.userID) := by
  have hfst := fun x => collectGo_fst_mem sessions ([], []) x
  have hsnd := fun x => collectGo_snd_mem sessions ([], []) x
  simp only [List.not_mem_nil, false_or] at hfst hsnd
  constructor
  · have hnd := collectGo_nodup sessions ([], []) (by simp) (by simp)
    unfold hydrationQueryIDs
    rw [List.nodup_append]
    refine ⟨hnd.1, hnd.2, ?_⟩
    intro x hx hx2
    obtain ⟨s, _, _, rfl⟩ := (hfst x).mp hx
    obtain ⟨t, _, hgen⟩ := (hsnd _).mp hx2
    exact generate_nodeIDs_distinct _ _ _ hgen
  · intro x
    unfold hydrationQueryIDs
    exact List.mem_append.trans (or_congr (hfst x) (hsnd x))

/-! ### C4: hydration join -/

theorem buildPRMap_mem (nodes : List RespNode) (k : String) (v : PullRequest) :
    (k, v) ∈ buildPRMap nodes ↔
      ∃ pr, RespNode.pullRequest pr ∈ nodes ∧ k = pr.fullDatabaseID ∧ v = mkPullRequest pr := by
  induction nodes with
  | nil => simp [buildPRMap]
  | cons n rest ih =>
    cases n <;> simp [buildPRMap, ih, Prod.ext_iff] <;> aesop

theorem buildUserMap_mem (nodes : List RespNode) (k : Nat) (v : GitHubUser) :
    (k, v) ∈ buildUserMap nodes ↔
      ∃ u, RespNode.user u ∈ nodes ∧ k = u.databaseID ∧ v = u := by
  induction nodes with
  | nil => simp [buildUserMap]
  | cons n rest ih =>
    cases n <;> simp [buildUserMap, ih, Prod.ext_iff] <;> aesop

theorem lookup1_eq_some {α β : Type} [BEq α] [LawfulBEq α]
    (m : List (α × β)) (k : α) (v : β) (h : lookup1 m k = some v) : (k, v) ∈ m := by
  unfold lookup1 at h
  cases hf : m.find? (fun p => p.1 == k) with
  | none => rw [hf] at h; exact Option.noConfusion h
  | some p =>
    rw [hf] at h
    have hmem := List.mem_of_find?_eq_some hf
    have hpred := List.find?_some hf
    obtain ⟨p1, p2⟩ := p
    simp only [beq_iff_eq] at hpred
    have hv : p2 = v := Option.some.inj h
    subst hpred
    subst hv
    exact hmem

theorem lookup1_eq_none {α β : Type} [BEq α] [LawfulBEq α]
    (m : List (α × β)) (k : α) :
    lookup1 m k = none ↔ ∀ p ∈ m, p.1 ≠ k := by
  unfold lookup1
  simp [List.find?_eq_none]

/-- The per-session transform applied by the hydration join phase. -/
def hydrateOne (nodes : List RespNode) (s : RawSession) : Session :=
  { fromAPISession s with
    pullRequest := lookup1 (buildPRMap nodes) (toString s.resourceID)
    user := lookup1 (buildUserMap nodes) s.userID }

theorem hydrate_eq_map (sessions : List RawSession) (nodes : List RespNode)
    (hne : sessions.isEmpty = false) :
    hydrateSessionPullRequestsAndUsers sessions nodes = sessions.map (hydrateOne nodes) := by
  unfold hydrateSessionPullRequestsAndUsers hydrateOne
  rw [hne]
  rfl

/-- C4: hydration preserves length and order; every session whose PR node
(keyed by the decimal form of ResourceID) occurs in the response is joined
to a pull request whose FullDatabaseID equals that decimal string; a
session with no matching PR node keeps PullRequest = none; a session with
no matching user node keeps User = none; hydration with a response never
fails.  The claim restricts the PR part to ResourceType == "pull" sessions;
the property proved here holds for every session, hence for those. -/
theorem hydration_join (sessions : List RawSession) (nodes : List RespNode)
    (i : Nat) (s : RawSession) (hs : sessions[i]? = some s) :
    (hydrateSessionPullRequestsAndUsers sessions nodes).length = sessions.length ∧
    ∃ t, (hydrateSessionPullRequestsAndUsers sessions nodes)[i]? = some t ∧
      t.id = s.id ∧ t.resourceType = s.resourceType ∧ t.resourceID = s.resourceID ∧
      ((∃ pr, RespNode.pullRequest pr ∈ nodes ∧ pr.fullDatabaseID = toString s.resourceID) →
        ∃ prOut, t.pullRequest = some prOut ∧
          prOut.fullDatabaseID = toString s.resourceID) ∧
      ((∀ pr, RespNode.pullRequest pr ∈ nodes → pr.fullDatabaseID ≠ toString s.resourceID) →
        t.pullRequest = none) ∧
      ((∀ u, RespNode.user u ∈ nodes → u.databaseID ≠ s.userID) → t.user = none) := by
  have hne : sessions.isEmpty = false := by
    cases sessions with
    | nil => exact absurd hs (by simp)
    | cons a l => rfl
  rw [hydrate_eq_map sessions nodes hne]
  refine ⟨List.length_map sessions _, hydrateOne nodes s, ?_, rfl, rfl, rfl, ?_, ?_, ?_⟩
  · rw [List.getElem?_map, hs]
    rfl
  · rintro ⟨pr, hpr, hkey⟩
    cases hlook : lookup1 (buildPRMap nodes) (toString s.resourceID) with
    | none =>
      rw [lookup1_eq_none] at hlook
      have hmem : (pr.fullDatabaseID, mkPullRequest pr) ∈ buildPRMap nodes :=
        (buildPRMap_mem nodes _ _).mpr ⟨pr, hpr, rfl, rfl⟩
      exact absurd hkey (hlook _ hmem)
    | some v =>
      have hmem := lookup1_eq_some _ _ _ hlook
      obtain ⟨q, hq, hk, hv⟩ := (buildPRMap_mem nodes _ _).mp hmem
      refine ⟨v, hlook, ?_⟩
      rw [hv]
      exact hk.symm
  · intro hnone
    show lookup1 (buildPRMap nodes) (toString s.resourceID) = none
    rw [lookup1_eq_none]
    rintro ⟨k, v⟩ hp hk
    obtain ⟨q, hq, hkq, hvq⟩ := (buildPRMap_mem nodes _ _).mp hp
    simp only at hk hkq
    exact hnone q hq (hkq ▸ hk)
  · intro hnone
    show lookup1 (buildUserMap nodes) s.userID = none
    rw [lookup1_eq_none]
    rintro ⟨k, v⟩ hp hk
    obtain ⟨q, hq, hkq, hvq⟩ := (buildUserMap_mem nodes _ _).mp hp
    simp only at hk hkq
    exact hnone q hq (hkq ▸ hk)

/-! ### C2, C7, C10: pagination, error mapping, negative limits -/

theorem hydrate_eq_map2 (sessions : List RawSession) (nodes : List RespNode) :
    hydrateSessionPullRequestsAndUsers sessions nodes = sessions.map (hydrateOne nodes) := by
  cases sessions with
  | nil => rfl
  | cons a l => exact hydrate_eq_map (a :: l) nodes rfl

theorem sessionsLoop_failStatus (pageFn : Nat → PageResp) (limit : Int) (page : Nat)
    (acc : List RawSession) (h : (pageFn page).status ≠ 200) :
    sessionsLoop pageFn limit page acc = .failStatus (pageFn page).status 1 := by
  rw [sessionsLoop]
  simp [h]

theorem sessionsLoop_stop_step (pageFn : Nat → PageResp) (limit : Int) (page : Nat)
    (acc ss : List RawSession)
    (hok : pageFn page = { status := 200, decoded := some ss })
    (hbreak : ss.length < defaultSessionsPerPage ∨ limit ≤ ((acc ++ ss).length : Int)) :
    sessionsLoop pageFn limit page acc = .pages (acc ++ ss) 1 := by
  rw [sessionsLoop]
  simp [hok, hbreak]
  intro h1 h2
  exfalso
  simp only [defaultSessionsPerPage, List.length_append] at hbreak h1
  omega

theorem sessionsLoop_cont_step (pageFn : Nat → PageResp) (limit : Int) (page : Nat)
    (acc ss : List RawSession)
    (hok : pageFn page = { status := 200, decoded := some ss })
    (hfull : defaultSessionsPerPage ≤ ss.length)
    (hunder : (((acc ++ ss).length : Int) < limit)) :
    sessionsLoop pageFn limit page acc =
      match sessionsLoop pageFn limit (page + 1) (acc ++ ss) with
      | .pages s r => .pages s (r + 1)
      | .failStatus st r => .failStatus st (r + 1)
      | .failDecode r => .failDecode (r + 1) := by
  rw [sessionsLoop]
  have hnot : ¬(ss.length < defaultSessionsPerPage ∨ limit ≤ (((acc ++ ss).length : Nat) : Int)) := by
    simp only [defaultSessionsPerPage, List.length_append, not_or, not_lt, not_le] at *
    omega
  simp [hok, hnot]
  intro hb
  exfalso
  simp only [defaultSessionsPerPage] at hb hfull
  simp only [List.length_append] at hunder
  rcases hb with hb | hb <;> omega

theorem sessionsLoop_serverPages_aux (all : List RawSession) (limit : Nat) (fuel : Nat) :
    ∀ page, 1 ≤ page → (page - 1) * 50 ≤ all.length → (page - 1) * 50 < limit →
      limit - (page - 1) * 50 ≤ fuel →
      sessionsLoop (serverPages all) (limit : Int) page (all.take ((page - 1) * 50)) =
        .pages
          (all.take (min ((page - 1) * 50 + 50 * paginationRequests all.length limit ((page - 1) * 50))
            all.length))
          (paginationRequests all.length limit ((page - 1) * 50)) := by
  induction fuel with
  | zero =>
    intro page _ _ hneed hfuel
    omega
  | succ fuel ih =>
    intro page hpage hcons hneed hfuel
    have hresp : serverPages all page =
        { status := 200, decoded := some ((all.drop ((page - 1) * 50)).take 50) } := by
      simp [serverPages, defaultSessionsPerPage]
    have hlen : ((all.drop ((page - 1) * 50)).take 50).length =
        min 50 (all.length - (page - 1) * 50) := by
      simp [List.length_take, List.length_drop]
    have htake : all.take ((page - 1) * 50) ++ (all.drop ((page - 1) * 50)).take 50 =
        all.take ((page - 1) * 50 + 50) := (List.take_add all ((page - 1) * 50) 50).symm
    have hlen2 : (all.take ((page - 1) * 50 + 50)).length =
        min ((page - 1) * 50 + 50) all.length := by
      simp [List.length_take]
    by_cases hbreak : ((all.drop ((page - 1) * 50)).take 50).length < defaultSessionsPerPage ∨
        (limit : Int) ≤ (((all.take ((page - 1) * 50) ++ (all.drop ((page - 1) * 50)).take 50).length : Nat) : Int)
    · rw [sessionsLoop_stop_step _ _ _ _ _ hresp hbreak, htake]
      rw [htake, hlen2] at hbreak
      simp only [defaultSessionsPerPage, hlen] at hbreak
      have hbreak2 : min 50 (all.length - (page - 1) * 50) < 50 ∨
          limit ≤ min ((page - 1) * 50 + 50) all.length := by
        rcases hbreak with hb | hb
        · exact Or.inl hb
        · exact Or.inr (by exact_mod_cast hb)
      have hreq : paginationRequests all.length limit ((page - 1) * 50) = 1 := by
        unfold paginationRequests
        split_ifs with hc <;> omega
      rw [hreq]
      congr 1
      rw [List.take_eq_take]
      rcases hbreak2 with hb | hb <;> omega
    · push_neg at hbreak
      obtain ⟨hfull, hunder⟩ := hbreak
      rw [sessionsLoop_cont_step _ _ _ _ _ hresp hfull hunder, htake]
      rw [hlen] at hfull
      rw [htake, hlen2] at hunder
      simp only [defaultSessionsPerPage] at hfull
      have hcons2 : page * 50 ≤ all.length := by omega
      have hunder2 : min ((page - 1) * 50 + 50) all.length < limit := by exact_mod_cast hunder
      have hneed2 : page * 50 < limit := by omega
      have ih2 := ih (page + 1) (by omega) (by simpa using hcons2) (by simpa using hneed2)
        (by simp only [Nat.add_sub_cancel]; omega)
      simp only [Nat.add_sub_cancel] at ih2
      rw [show (page - 1) * 50 + 50 = page * 50 from by omega, ih2]
      have hreq : paginationRequests all.length limit ((page - 1) * 50) =
          paginationRequests all.length limit (page * 50) + 1 := by
        unfold paginationRequests
        split_ifs with hc <;> omega
      rw [hreq]
      dsimp only
      congr 2
      omega

theorem listSessionsCore_serverPages (all : List RawSession) (nodes : List RespNode)
    (limit : Nat) (hlim : 1 ≤ limit) :
    listSessionsCore (serverPages all) (some nodes) (limit : Int) =
      .ok (hydrateSessionPullRequestsAndUsers (all.take (min limit all.length)) nodes)
        (paginationRequests all.length limit 0) := by
  unfold listSessionsCore
  rw [if_neg (by omega : ¬((limit : Int) = 0))]
  rw [if_neg (by simp only [defaultSessionsPerPage]; omega :
    ¬((limit : Int) + (defaultSessionsPerPage : Int) < 0))]
  have hloop := sessionsLoop_serverPages_aux all limit limit 1 le_rfl (by simp) (by omega)
    (by omega)
  simp only [Nat.sub_self, Nat.zero_mul, List.take_zero, Nat.zero_add] at hloop
  rw [hloop]
  set R := paginationRequests all.length limit 0 with hR
  have hRbound : (limit ≤ all.length → limit ≤ 50 * R) ∧
      (all.length < limit → all.length < 50 * R) := by
    rw [hR]
    unfold paginationRequests
    split_ifs with hc <;> constructor <;> intro h <;> omega
  have hlenacc : (all.take (min (50 * R) all.length)).length = min (50 * R) all.length := by
    simp [List.length_take]
  have htrunc : truncateToLimit (all.take (min (50 * R) all.length)) (limit : Int) =
      some (all.take (min limit all.length)) := by
    unfold truncateToLimit goSliceTo
    by_cases hcase : limit ≤ all.length
    · have h50R := hRbound.1 hcase
      by_cases htr : ((limit : Int)) < ((all.take (min (50 * R) all.length)).length : Int)
      · rw [if_pos htr, if_neg (by omega)]
        congr 1
        rw [List.take_take]
        congr 1
        simp only [Int.toNat_ofNat]
        omega
      · rw [if_neg htr]
        congr 1
        rw [List.take_eq_take]
        rw [hlenacc] at htr
        have htr2 : min (50 * R) all.length ≤ limit := by exact_mod_cast not_lt.mp htr
        omega
    · push_neg at hcase
      have h50R := hRbound.2 hcase
      rw [if_neg (by rw [hlenacc]; push_neg; exact_mod_cast (by omega : min (50 * R) all.length ≤ limit))]
      congr 1
      rw [List.take_eq_take]
      omega
  dsimp only
  rw [htrunc]

/-- C2 counterexample: against an empty server with limit 30, the code
issues one probe page request and returns no items, while the claim's
formula ceil(k/pageSize) with k = min(30, 0) = 0 predicts zero requests. -/
theorem pagination_requests_counterexample :
    ListSessionsForViewer (serverPages []) (some []) 30 = .ok [] 1 ∧
    (min 30 (List.length ([] : List RawSession)) + 49) / 50 = 0 := by
  constructor
  · unfold ListSessionsForViewer listSessionsCore
    rw [if_neg (by decide), if_neg (by decide)]
    rw [sessionsLoop_stop_step (serverPages []) 30 1 [] [] rfl (Or.inl (by decide))]
    rfl
  · decide

/-- C2 (amended): each of the three list operations returns exactly
k = min(limit, totalAvailable) items, in source order (the hydration of the
first k server sessions, which preserves length and order); limit 0
performs no page requests and returns an empty result; for limit ≥ 1 the
number of page requests is ceil(limit/50) when limit ≤ totalAvailable and
floor(totalAvailable/50) + 1 otherwise — one request per full page plus a
final short probe page, in particular one request when the server is empty
— as computed by paginationRequests; no request is issued after the limit
is reached. -/
theorem listSessions_pagination (all : List RawSession) (nodes : List RespNode)
    (limit : Nat) (hlim : 1 ≤ limit) :
    (∀ pageFn gql, ListSessionsForViewer pageFn gql 0 = .ok [] 0 ∧
      ListSessionsForRepo "o" "r" pageFn gql 0 = .ok [] 0 ∧
      ListSessionsByResourceID "pull" 1 pageFn gql 0 = .ok [] 0) ∧
    ListSessionsForViewer (serverPages all) (some nodes) (limit : Int) =
      .ok (hydrateSessionPullRequestsAndUsers (all.take (min limit all.length)) nodes)
        (paginationRequests all.length limit 0) ∧
    (∀ owner repo, owner ≠ "" → repo ≠ "" →
      ListSessionsForRepo owner repo (serverPages all) (some nodes) (limit : Int) =
        .ok (hydrateSessionPullRequestsAndUsers (all.take (min limit all.length)) nodes)
          (paginationRequests all.length limit 0)) ∧
    (∀ rt rid, rt ≠ "" → rid ≠ 0 →
      ListSessionsByResourceID rt rid (serverPages all) (some nodes) (limit : Int) =
        .ok (hydrateSessionPullRequestsAndUsers (all.take (min limit all.length)) nodes)
          (paginationRequests all.length limit 0)) ∧
    (hydrateSessionPullRequestsAndUsers (all.take (min limit all.length)) nodes).length
      = min limit all.length ∧
    (hydrateSessionPullRequestsAndUsers (all.take (min limit all.length)) nodes).map Session.id
      = (all.take (min limit all.length)).map RawSession.id := by
  refine ⟨?_, listSessionsCore_serverPages all nodes limit hlim, ?_, ?_, ?_, ?_⟩
  · intro pageFn gql
    refine ⟨?_, ?_, ?_⟩ <;>
      simp [ListSessionsForViewer, ListSessionsForRepo, ListSessionsByResourceID,
        listSessionsCore]
  · intro owner repo ho hr
    unfold ListSessionsForRepo
    rw [if_neg (by simp [ho, hr])]
    exact listSessionsCore_serverPages all nodes limit hlim
  · intro rt rid h1 h2
    unfold ListSessionsByResourceID
    rw [if_neg (by simp [h1, h2])]
    exact listSessionsCore_serverPages all nodes limit hlim
  · rw [hydrate_eq_map2]
    simp [List.length_take]
  · rw [hydrate_eq_map2, List.map_map]
    rfl

/-- Witness for the amended C2 theorem at limit 1 against an empty server. -/
theorem listSessions_pagination_witness :
    1 ≤ 1 ∧
    ((∀ pageFn gql, ListSessionsForViewer pageFn gql 0 = .ok [] 0 ∧
      ListSessionsForRepo "o" "r" pageFn gql 0 = .ok [] 0 ∧
      ListSessionsByResourceID "pull" 1 pageFn gql 0 = .ok [] 0) ∧
    ListSessionsForViewer (serverPages []) (some []) ((1 : Nat) : Int) =
      .ok (hydrateSessionPullRequestsAndUsers (List.take (min 1 (List.length ([] : List RawSession))) []) [])
        (paginationRequests (List.length ([] : List RawSession)) 1 0) ∧
    (∀ owner repo, owner ≠ "" → repo ≠ "" →
      ListSessionsForRepo owner repo (serverPages []) (some []) ((1 : Nat) : Int) =
        .ok (hydrateSessionPullRequestsAndUsers (List.take (min 1 (List.length ([] : List RawSession))) []) [])
          (paginationRequests (List.length ([] : List RawSession)) 1 0)) ∧
    (∀ rt rid, rt ≠ "" → rid ≠ 0 →
      ListSessionsByResourceID rt rid (serverPages []) (some []) ((1 : Nat) : Int) =
        .ok (hydrateSessionPullRequestsAndUsers (List.take (min 1 (List.length ([] : List RawSession))) []) [])
          (paginationRequests (List.length ([] : List RawSession)) 1 0)) ∧
    (hydrateSessionPullRequestsAndUsers (List.take (min 1 (List.length ([] : List RawSession))) []) []).length
      = min 1 (List.length ([] : List RawSession)) ∧
    (hydrateSessionPullRequestsAndUsers (List.take (min 1 (List.length ([] : List RawSession))) []) []).map Session.id
      = (List.take (min 1 (List.length ([] : List RawSession))) []).map RawSession.id) :=
  ⟨le_rfl, listSessions_pagination [] [] 1 le_rfl⟩

/-! ### C7: not-found sentinel -/

/-- C7 counterexample: the claim asserts that every Copilot API client
operation translates a 404 into the SessionNotFound sentinel; the list
operations do not — a 404 on the first page of ListSessionsByResourceID
yields the same generic status-carrying error constructor as any other
non-200 (here contrasted with a 500), not the sentinel. -/
theorem notFound_sentinel_counterexample :
    ListSessionsByResourceID "pull" 1 (fun _ => { status := 404, decoded := none })
      (some []) 40 = .errStatus 404 1 ∧
    ListSessionsByResourceID "pull" 1 (fun _ => { status := 500, decoded := none })
      (some []) 40 = .errStatus 500 1 := by
  refine ⟨?_, ?_⟩ <;>
    (unfold ListSessionsByResourceID listSessionsCore
     rw [if_neg (by decide), if_neg (by decide), if_neg (by decide)]
     rw [sessionsLoop_failStatus _ _ _ _ (by decide)])

/-- C7 (amended): GetSession and GetSessionLogs return the SessionNotFound
sentinel exactly when the server answers 404 (for any non-empty session
ID), and surface any other non-2xx as a status-carrying error; the list
operations surface every non-200 — including a 404 — as the generic
"failed to list sessions" error carrying the HTTP status, not the
sentinel. -/
theorem notFound_sentinel (id : String) (hid : id ≠ "") (st : Nat)
    (d : Option RawSession) (gql : Option (List RespNode)) (body : String) :
    (GetSession id { status := st, decoded := d } gql = .sessionNotFound ↔ st = 404) ∧
    (GetSessionLogs id { status := st, body := body } = .sessionNotFound ↔ st = 404) ∧
    (st ≠ 200 → st ≠ 404 →
      GetSession id { status := st, decoded := d } gql = .errStatus st) ∧
    (∀ pageFn : Nat → PageResp, ∀ gql2 limit, limit ≠ 0 → -50 ≤ limit →
      (pageFn 1).status = 404 →
      ListSessionsForViewer pageFn gql2 limit = .errStatus 404 1) := by
  refine ⟨?_, ?_, ?_, ?_⟩
  · unfold GetSession
    rw [if_neg hid]
    dsimp only
    constructor
    · intro hcontr
      by_contra h4
      revert hcontr
      split_ifs with hne
      · first
        | exact id
        | (intro hcontr; simp at hcontr)
      · intro hcontr
        rcases d with _ | raw
        · simp at hcontr
        · rcases gql with _ | nodes
          · simp at hcontr
          · dsimp only at hcontr
            rw [hydrate_eq_map2] at hcontr
            simp at hcontr
    · intro h4
      subst h4
      simp
  · unfold GetSessionLogs
    rw [if_neg hid]
    dsimp only
    constructor
    · intro hcontr
      by_contra h4
      revert hcontr
      split_ifs with hne
      · first
        | exact id
        | (intro hcontr; simp at hcontr)
      · intro hcontr
        simp at hcontr
    · intro h4
      subst h4
      simp
  · intro h200 h404
    unfold GetSession
    rw [if_neg hid]
    dsimp only
    rw [if_pos h200, if_neg h404]
  · intro pageFn gql2 limit hlim hcap h404
    unfold ListSessionsForViewer listSessionsCore
    rw [if_neg hlim]
    rw [if_neg (by simp only [defaultSessionsPerPage]; omega :
      ¬(limit + (defaultSessionsPerPage : Int) < 0))]
    rw [sessionsLoop_failStatus pageFn limit 1 [] (by rw [h404]; decide)]
    rw [h404]

/-- Witness for the amended C7 theorem at session ID "sess1", status 404. -/
theorem notFound_sentinel_witness :
    ("sess1" : String) ≠ "" ∧
    ((GetSession "sess1" { status := 404, decoded := none } none = .sessionNotFound ↔
        404 = 404) ∧
    (GetSessionLogs "sess1" { status := 404, body := "" } = .sessionNotFound ↔ 404 = 404) ∧
    ((404 : Nat) ≠ 200 → (404 : Nat) ≠ 404 →
      GetSession "sess1" { status := 404, decoded := none } none = .errStatus 404) ∧
    (∀ pageFn : Nat → PageResp, ∀ gql2 limit, limit ≠ 0 → -50 ≤ limit →
      (pageFn 1).status = 404 →
      ListSessionsForViewer pageFn gql2 limit = .errStatus 404 1)) :=
  ⟨by decide, notFound_sentinel "sess1" (by decide) 404 none none ""⟩

/-! ### C10: negative limits reach a runtime panic -/

/-- C10 counterexample: the claim asserts that for every negative limit
each list operation, after successfully receiving the first page, panics
at sessions[:limit]; at limit = -51 the capacity limit+pageSize of
`make([]session, 0, limit+pageSize)` is negative and the Go runtime panics
there, before any page request is issued — a different panic site with
zero requests, even against a server ready to answer the first page. -/
theorem negative_limit_make_counterexample :
    ListSessionsForViewer (fun _ => { status := 200, decoded := some [] }) none (-51) =
      .makeCapOutOfRange ∧
    ListOutcome.makeCapOutOfRange ≠ .sliceOutOfRange 1 := by
  constructor
  · unfold ListSessionsForViewer listSessionsCore
    rw [if_neg (by decide), if_pos (by decide)]
  · decide

/-- C10 (amended): no guard rejects negative limits at the client interface
— only limit == 0 is special-cased — and every negative limit reaches a
runtime panic, at one of two sites: for -50 ≤ limit ≤ -1 the make
allocation succeeds and each operation, once the first page request
succeeds (whatever its decoded contents), breaks out of the page loop
immediately (len(sessions) >= limit holds for a negative limit), reaches
the truncation step with len(sessions) > limit, and evaluates
sessions[:limit] with a negative bound — the out-of-range slice panic
after exactly one page request; for limit < -50 the capacity
limit+pageSize of `make([]session, 0, limit+pageSize)` is negative and the
Go runtime panics there before any request is issued. -/
theorem listSessions_negative_limit (limit : Int) (hneg : limit < 0)
    (pageFn : Nat → PageResp) (gql : Option (List RespNode)) (ss : List RawSession)
    (hok : pageFn 1 = { status := 200, decoded := some ss }) :
    (-50 ≤ limit →
      ListSessionsForViewer pageFn gql limit = .sliceOutOfRange 1 ∧
      (∀ owner repo, owner ≠ "" → repo ≠ "" →
        ListSessionsForRepo owner repo pageFn gql limit = .sliceOutOfRange 1) ∧
      (∀ rt rid, rt ≠ "" → rid ≠ 0 →
        ListSessionsByResourceID rt rid pageFn gql limit = .sliceOutOfRange 1)) ∧
    (limit < -50 →
      ListSessionsForViewer pageFn gql limit = .makeCapOutOfRange ∧
      (∀ owner repo, owner ≠ "" → repo ≠ "" →
        ListSessionsForRepo owner repo pageFn gql limit = .makeCapOutOfRange) ∧
      (∀ rt rid, rt ≠ "" → rid ≠ 0 →
        ListSessionsByResourceID rt rid pageFn gql limit = .makeCapOutOfRange)) := by
  constructor
  · intro hge
    have hcore : listSessionsCore pageFn gql limit = .sliceOutOfRange 1 := by
      unfold listSessionsCore
      rw [if_neg (by omega)]
      rw [if_neg (by simp only [defaultSessionsPerPage]; omega :
        ¬(limit + (defaultSessionsPerPage : Int) < 0))]
      rw [sessionsLoop_stop_step pageFn limit 1 [] ss hok (Or.inr (by omega))]
      have htr : truncateToLimit ([] ++ ss) limit = none := by
        unfold truncateToLimit goSliceTo
        rw [if_pos (by omega), if_pos (Or.inl hneg)]
      dsimp only
      rw [htr]
    refine ⟨hcore, ?_, ?_⟩
    · intro owner repo ho hr
      unfold ListSessionsForRepo
      rw [if_neg (by simp [ho, hr])]
      exact hcore
    · intro rt rid h1 h2
      unfold ListSessionsByResourceID
      rw [if_neg (by simp [h1, h2])]
      exact hcore
  · intro hlt
    have hcore : listSessionsCore pageFn gql limit = .makeCapOutOfRange := by
      unfold listSessionsCore
      rw [if_neg (by omega)]
      rw [if_pos (by simp only [defaultSessionsPerPage]; omega :
        limit + (defaultSessionsPerPage : Int) < 0)]
    refine ⟨hcore, ?_, ?_⟩
    · intro owner repo ho hr
      unfold ListSessionsForRepo
      rw [if_neg (by simp [ho, hr])]
      exact hcore
    · intro rt rid h1 h2
      unfold ListSessionsByResourceID
      rw [if_neg (by simp [h1, h2])]
      exact hcore

/-- Witness for the amended C10 at limit -1 (slice-panic regime) with a
successful empty first page. -/
theorem listSessions_negative_limit_witness :
    ((-1 : Int) < 0) ∧
    ((fun _ : Nat => ({ status := 200, decoded := some [] } : PageResp)) 1 =
      { status := 200, decoded := some [] }) ∧
    (((-50 : Int) ≤ -1 →
      ListSessionsForViewer (fun _ => { status := 200, decoded := some [] }) none (-1) =
        .sliceOutOfRange 1 ∧
      (∀ owner repo, owner ≠ "" → repo ≠ "" →
        ListSessionsForRepo owner repo (fun _ => { status := 200, decoded := some [] })
          none (-1) = .sliceOutOfRange 1) ∧
      (∀ rt rid, rt ≠ "" → rid ≠ 0 →
        ListSessionsByResourceID rt rid (fun _ => { status := 200, decoded := some [] })
          none (-1) = .sliceOutOfRange 1)) ∧
    ((-1 : Int) < -50 →
      ListSessionsForViewer (fun _ => { status := 200, decoded := some [] }) none (-1) =
        .makeCapOutOfRange ∧
      (∀ owner repo, owner ≠ "" → repo ≠ "" →
        ListSessionsForRepo owner repo (fun _ => { status := 200, decoded := some [] })
          none (-1) = .makeCapOutOfRange) ∧
      (∀ rt rid, rt ≠ "" → rid ≠ 0 →
        ListSessionsByResourceID rt rid (fun _ => { status := 200, decoded := some [] })
          none (-1) = .makeCapOutOfRange))) :=
  ⟨by decide, rfl, listSessions_negative_limit (-1) (by decide) _ none [] rfl⟩

/-! ### C1: node-identifier codec -/
theorem b64Index_b64Char : ∀ n, n < 64 → b64Index (b64Char n) = some n := by decide

theorem msgpackCompactUint_bytes_lt (n : Nat) (h : n < 2 ^ 64) :
    ∀ b ∈ msgpackCompactUint n, b < 256 := by
  unfold msgpackCompactUint
  split_ifs with h1 h2 h3 h4 <;> intro b hb <;> fin_cases hb <;> omega

theorem msgpackDecode_encode (n : Nat) (h : n < 2 ^ 64) (rest : List Nat) :
    msgpackDecodeUint (msgpackCompactUint n ++ rest) = some (n, rest) := by
  unfold msgpackCompactUint
  split_ifs with h1 h2 h3 h4 <;> simp [msgpackDecodeUint, h1] <;> omega

theorem base64url_roundtrip (bs : List Nat) (h : ∀ b ∈ bs, b < 256) :
    base64urlDecode (base64urlEncode bs) = some bs := by
  induction bs using base64urlEncode.induct with
  | case1 => rfl
  | case2 b0 =>
    have hb0 : b0 < 256 := h b0 (by simp)
    simp only [base64urlEncode, base64urlDecode]
    rw [b64Index_b64Char _ (by omega), b64Index_b64Char _ (by omega)]
    dsimp only
    have : b0 / 4 * 4 + b0 % 4 * 16 / 16 = b0 := by omega
    rw [this]
  | case3 b0 b1 =>
    have hb0 : b0 < 256 := h b0 (by simp)
    have hb1 : b1 < 256 := h b1 (by simp)
    simp only [base64urlEncode, base64urlDecode]
    rw [b64Index_b64Char _ (by omega), b64Index_b64Char _ (by omega),
      b64Index_b64Char _ (by omega)]
    dsimp only
    have e1 : b0 / 4 * 4 + (b0 % 4 * 16 + b1 / 16) / 16 = b0 := by omega
    have e2 : (b0 % 4 * 16 + b1 / 16) % 16 * 16 + b1 % 16 * 4 / 4 = b1 := by omega
    rw [e1, e2]
  | case4 b0 b1 b2 rest ih =>
    have hb0 : b0 < 256 := h b0 (by simp)
    have hb1 : b1 < 256 := h b1 (by simp)
    have hb2 : b2 < 256 := h b2 (by simp)
    have hrest : ∀ b ∈ rest, b < 256 := fun b hb => h b (by simp [hb])
    simp only [base64urlEncode, base64urlDecode]
    rw [b64Index_b64Char _ (by omega), b64Index_b64Char _ (by omega),
      b64Index_b64Char _ (by omega), b64Index_b64Char _ (by omega), ih hrest]
    dsimp only
    have e1 : b0 / 4 * 4 + (b0 % 4 * 16 + b1 / 16) / 16 = b0 := by omega
    have e2 : (b0 % 4 * 16 + b1 / 16) % 16 * 16 + (b1 % 16 * 4 + b2 / 64) / 4 = b1 := by omega
    have e3 : (b1 % 16 * 4 + b2 / 64) % 4 * 64 + b2 % 64 = b2 := by omega
    rw [e1, e2, e3]



theorem decodeNodeID_PR (r p : Nat) (hr : r < 2 ^ 64) (hp : p < 2 ^ 64) :
    decodePullRequestNodeID (generatePullRequestNodeID r p) = some [0, r, p] := by
  unfold generatePullRequestNodeID decodePullRequestNodeID
  have hfix : msgpackFixArray
      [msgpackCompactUint 0, msgpackCompactUint r, msgpackCompactUint p] =
      0x93 :: (msgpackCompactUint 0 ++ (msgpackCompactUint r ++ (msgpackCompactUint p ++ []))) := rfl
  have hbound : ∀ b ∈ msgpackFixArray
      [msgpackCompactUint 0, msgpackCompactUint r, msgpackCompactUint p], b < 256 := by
    intro b hb
    rw [hfix] at hb
    simp only [List.mem_cons, List.mem_append, List.not_mem_nil, or_false] at hb
    rcases hb with rfl | hb | hb | hb
    · decide
    · exact msgpackCompactUint_bytes_lt 0 (by norm_num) b hb
    · exact msgpackCompactUint_bytes_lt r hr b hb
    · exact msgpackCompactUint_bytes_lt p hp b hb
  have hdata : ("PR_" ++ String.mk (base64urlEncode (msgpackFixArray
      [msgpackCompactUint 0, msgpackCompactUint r, msgpackCompactUint p]))).data =
      'P' :: 'R' :: '_' :: base64urlEncode (msgpackFixArray
        [msgpackCompactUint 0, msgpackCompactUint r, msgpackCompactUint p]) := by
    rw [String.data_append]
    rfl
  rw [hdata]
  show (match base64urlDecode (base64urlEncode (msgpackFixArray
      [msgpackCompactUint 0, msgpackCompactUint r, msgpackCompactUint p])) with
    | some bytes => decodeNodeIDBytes bytes
    | none => none) = some [0, r, p]
  rw [base64url_roundtrip _ hbound]
  show decodeNodeIDBytes (msgpackFixArray
    [msgpackCompactUint 0, msgpackCompactUint r, msgpackCompactUint p]) = some [0, r, p]
  rw [hfix]
  unfold decodeNodeIDBytes
  dsimp only
  rw [if_pos (by decide : (144 ≤ 147 ∧ 147 ≤ 159))]
  show msgpackDecodeUints 3 _ = _
  unfold msgpackDecodeUints
  rw [msgpackDecode_encode 0 (by norm_num)]
  try dsimp only
  unfold msgpackDecodeUints
  rw [msgpackDecode_encode r hr]
  try dsimp only
  unfold msgpackDecodeUints
  rw [msgpackDecode_encode p hp]
  try dsimp only
  rfl



theorem decodeNodeID_User (u : Nat) (hu : u < 2 ^ 64) :
    decodeUserNodeID (generateUserNodeID u) = some [0, u] := by
  unfold generateUserNodeID decodeUserNodeID
  have hfix : msgpackFixArray [msgpackCompactUint 0, msgpackCompactUint u] =
      0x92 :: (msgpackCompactUint 0 ++ (msgpackCompactUint u ++ [])) := rfl
  have hbound : ∀ b ∈ msgpackFixArray [msgpackCompactUint 0, msgpackCompactUint u],
      b < 256 := by
    intro b hb
    rw [hfix] at hb
    simp only [List.mem_cons, List.mem_append, List.not_mem_nil, or_false] at hb
    rcases hb with rfl | hb | hb
    · decide
    · exact msgpackCompactUint_bytes_lt 0 (by norm_num) b hb
    · exact msgpackCompactUint_bytes_lt u hu b hb
  have hdata : ("U_" ++ String.mk (base64urlEncode (msgpackFixArray
      [msgpackCompactUint 0, msgpackCompactUint u]))).data =
      'U' :: '_' :: base64urlEncode (msgpackFixArray
        [msgpackCompactUint 0, msgpackCompactUint u]) := by
    rw [String.data_append]
    rfl
  rw [hdata]
  show (match base64urlDecode (base64urlEncode (msgpackFixArray
      [msgpackCompactUint 0, msgpackCompactUint u])) with
    | some bytes => decodeNodeIDBytes bytes
    | none => none) = some [0, u]
  rw [base64url_roundtrip _ hbound]
  show decodeNodeIDBytes (msgpackFixArray
    [msgpackCompactUint 0, msgpackCompactUint u]) = some [0, u]
  rw [hfix]
  unfold decodeNodeIDBytes
  dsimp only
  rw [if_pos (by decide : (144 ≤ 146 ∧ 146 ≤ 159))]
  show msgpackDecodeUints 2 _ = _
  unfold msgpackDecodeUints
  rw [msgpackDecode_encode 0 (by norm_num)]
  try dsimp only
  unfold msgpackDecodeUints
  rw [msgpackDecode_encode u hu]
  try dsimp only
  rfl

/-- C1: node-identifier encoding is deterministic (a pure function of its
arguments) and matches the server byte format: for all non-negative 64-bit
inputs, the reference decoder recovers [0, repoID, prDatabaseID] (resp.
[0, userID]) from the encoded identifier, and the two concrete vectors of
the claim hold. -/
theorem nodeID_codec (r p u : Nat) (hr : r < 2 ^ 64) (hp : p < 2 ^ 64) (hu : u < 2 ^ 64) :
    decodePullRequestNodeID (generatePullRequestNodeID r p) = some [0, r, p] ∧
    decodeUserNodeID (generateUserNodeID u) = some [0, u] ∧
    generatePullRequestNodeID 1000 2000 = "PR_kwDNA-jNB9A" ∧
    generateUserNodeID 1 = "U_kgAB" :=
  ⟨decodeNodeID_PR r p hr hp, decodeNodeID_User u hu, by decide, by decide⟩

/-- Witness for C1 at repoID 1000, prDatabaseID 2000, userID 1. -/
theorem nodeID_codec_witness :
    (1000 : Nat) < 2 ^ 64 ∧ (2000 : Nat) < 2 ^ 64 ∧ (1 : Nat) < 2 ^ 64 ∧
    (decodePullRequestNodeID (generatePullRequestNodeID 1000 2000) = some [0, 1000, 2000] ∧
     decodeUserNodeID (generateUserNodeID 1) = some [0, 1] ∧
     generatePullRequestNodeID 1000 2000 = "PR_kwDNA-jNB9A" ∧
     generateUserNodeID 1 = "U_kgAB") :=
  ⟨by decide, by decide, by decide, nodeID_codec 1000 2000 1 (by decide) (by decide) (by decide)⟩

/-! ### C9: log-follow convergence -/
theorem renderChoices_done_stop (cs : List Choice) (b : Bool) (evs : List RenderEvent)
    (st : Bool) (h : renderChoices cs b = .done evs st) :
    st = (b || cs.any (fun c => c.finishReason == "stop")) := by
  induction cs generalizing b evs st with
  | nil =>
    unfold renderChoices at h
    obtain ⟨-, h2⟩ := EntryResult.done.inj h
    simp [← h2]
  | cons c rest ih =>
    unfold renderChoices at h
    rcases hce : choiceEvents c with ⟨evsC, errC⟩
    rw [hce] at h
    cases errC with
    | some m =>
      dsimp only at h
      exact absurd h (by simp)
    | none =>
      dsimp only at h
      cases hrc : renderChoices rest (b || (c.finishReason == "stop")) with
      | done evs2 st2 =>
        rw [hrc] at h
        obtain ⟨-, h2⟩ := EntryResult.done.inj h
        have hst := ih _ _ _ hrc
        rw [← h2, hst]
        simp [List.any_cons, Bool.or_assoc]
      | failed evs2 m =>
        rw [hrc] at h
        exact absurd h (by simp)

theorem renderLines_cons_ok (l : LogLine) (rest : List LogLine)
    (hok : lineOk l = true) (hstop : stopLine l = false) :
    renderLines (l :: rest) = (lineEvents l ++ (renderLines rest).1, (renderLines rest).2) := by
  cases l with
  | blank => simp [renderLines, lineEvents]
  | noData t => simp [lineOk] at hok
  | dataLine e =>
    cases e with
    | none => simp [renderLines, lineEvents]
    | some entry =>
      by_cases hobj : entry.object = "chat.completion.chunk"
      · have hobjne : ¬(entry.object ≠ "chat.completion.chunk") := by simpa using hobj
        cases hrc : renderChoices entry.choices false with
        | failed evs m =>
          exfalso
          unfold lineOk at hok
          dsimp only at hok
          rw [if_pos hobj, hrc] at hok
          simp at hok
        | done evs st =>
          have hany : entry.choices.any (fun c => c.finishReason == "stop") = false := by
            unfold stopLine at hstop
            simpa [hobj] using hstop
          have hst : st = false := by
            have := renderChoices_done_stop _ _ _ _ hrc
            simp [hany] at this
            exact this
          subst hst
          simp only [renderLines]
          rw [if_neg hobjne, hrc]
          dsimp only
          simp only [Bool.false_eq_true, if_false]
          unfold lineEvents
          dsimp only
          rw [if_pos hobj, hrc]
          rfl
      · simp only [renderLines]
        rw [if_pos (by simpa using hobj)]
        unfold lineEvents
        dsimp only
        rw [if_neg hobj]
        simp

theorem renderLines_stop_cons (s : LogLine) (rest : List LogLine)
    (hok : lineOk s = true) (hstop : stopLine s = true) :
    renderLines (s :: rest) = (lineEvents s, .ok true) := by
  cases s with
  | blank => simp [stopLine] at hstop
  | noData t => simp [lineOk] at hok
  | dataLine e =>
    cases e with
    | none => simp [stopLine] at hstop
    | some entry =>
      unfold stopLine at hstop
      simp only [Bool.and_eq_true, beq_iff_eq] at hstop
      obtain ⟨hobj, hany⟩ := hstop
      have hobjne : ¬(entry.object ≠ "chat.completion.chunk") := by simpa using hobj
      cases hrc : renderChoices entry.choices false with
      | failed evs m =>
        exfalso
        unfold lineOk at hok
        dsimp only at hok
        rw [if_pos hobj, hrc] at hok
        simp at hok
      | done evs st =>
        have hst : st = true := by
          have := renderChoices_done_stop _ _ _ _ hrc
          simp [hany] at this
          exact this
        subst hst
        simp only [renderLines]
        rw [if_neg hobjne, hrc]
        dsimp only
        rw [if_pos rfl]
        unfold lineEvents
        dsimp only
        rw [if_pos hobj, hrc]
        rfl



theorem linesEvents_append (a b : List LogLine) :
    linesEvents (a ++ b) = linesEvents a ++ linesEvents b := by
  induction a with
  | nil => simp [linesEvents]
  | cons l rest ih => simp [linesEvents, ih]

theorem renderLines_append_ok (a b : List LogLine)
    (h : ∀ l ∈ a, lineOk l = true ∧ stopLine l = false) :
    renderLines (a ++ b) = (linesEvents a ++ (renderLines b).1, (renderLines b).2) := by
  induction a with
  | nil => simp [linesEvents]
  | cons l rest ih =>
    have hl := h l (by simp)
    rw [List.cons_append, renderLines_cons_ok l _ hl.1 hl.2,
      ih (fun x hx => h x (by simp [hx]))]
    simp [linesEvents]

theorem renderLines_no_stop (a : List LogLine)
    (h : ∀ l ∈ a, lineOk l = true ∧ stopLine l = false) :
    renderLines a = (linesEvents a, .ok false) := by
  have := renderLines_append_ok a [] h
  rw [List.append_nil] at this
  simpa [renderLines] using this

theorem renderLines_upToStop (t : List LogLine) (hok : ∀ l ∈ t, lineOk l = true)
    (hstop : ∃ l ∈ t, stopLine l = true) :
    renderLines t = (linesEvents (upToStop t), Except.ok true) := by
  induction t with
  | nil => simp at hstop
  | cons l rest ih =>
    by_cases hsl : stopLine l = true
    · rw [renderLines_stop_cons l rest (hok l (by simp)) hsl]
      simp [upToStop, hsl, linesEvents]
    · have hsl2 : stopLine l = false := by simpa using hsl
      rw [renderLines_cons_ok l rest (hok l (by simp)) hsl2]
      have hstop2 : ∃ x ∈ rest, stopLine x = true := by
        rcases hstop with ⟨x, hx, hsx⟩
        rcases List.mem_cons.mp hx with rfl | hx2
        · exact absurd hsx hsl
        · exact ⟨x, hx2, hsx⟩
      rw [ih (fun x hx => hok x (by simp [hx])) hstop2]
      simp [upToStop, hsl2, linesEvents]

theorem upToStop_append_no_stop (a b : List LogLine)
    (h : ∀ l ∈ a, stopLine l = false) :
    upToStop (a ++ b) = a ++ upToStop b := by
  induction a with
  | nil => simp
  | cons l rest ih =>
    have hl : stopLine l = false := h l (by simp)
    simp only [List.cons_append, upToStop, hl, Bool.false_eq_true, if_false, List.append_eq]
    rw [ih (fun x hx => h x (by simp [hx]))]

theorem upToStop_append_stop (c w : List LogLine)
    (h : ∃ l ∈ c, stopLine l = true) :
    upToStop (c ++ w) = upToStop c := by
  induction c with
  | nil => simp at h
  | cons l rest ih =>
    by_cases hsl : stopLine l = true
    · simp [upToStop, hsl]
    · have h2 : ∃ x ∈ rest, stopLine x = true := by
        rcases h with ⟨x, hx, hsx⟩
        rcases List.mem_cons.mp hx with rfl | hx2
        · exact absurd hsx hsl
        · exact ⟨x, hx2, hsx⟩
      simp only [List.cons_append, upToStop, hsl, Bool.false_eq_true, if_false, List.append_eq]
      rw [ih h2]

theorem chain_getLast_extends :
    ∀ (chunks : List (List LogLine)),
      List.Chain' (fun a b => ∃ t, a ++ t = b) chunks →
      ∀ hne : chunks ≠ [], ∀ c ∈ chunks, ∃ t, c ++ t = chunks.getLast hne := by
  intro chunks
  induction chunks with
  | nil => intro _ hne; exact absurd rfl hne
  | cons a rest ih =>
    intro hchain hne c hc
    cases rest with
    | nil =>
      rcases List.mem_cons.mp hc with rfl | hc2
      · exact ⟨[], by simp⟩
      · simp at hc2
    | cons b rest2 =>
      have hchain2 : List.Chain' (fun x y => ∃ t, x ++ t = y) (b :: rest2) :=
        (List.chain'_cons.mp hchain).2
      have hab : ∃ t, a ++ t = b := (List.chain'_cons.mp hchain).1
      rw [List.getLast_cons (by simp : (b :: rest2) ≠ [])]
      rcases List.mem_cons.mp hc with rfl | hc2
      · obtain ⟨t1, ht1⟩ := hab
        obtain ⟨t2, ht2⟩ := ih hchain2 (by simp) b (by simp)
        exact ⟨t1 ++ t2, by rw [← List.append_assoc, ht1, ht2]⟩
      · exact ih hchain2 (by simp) c hc2



theorem follow_go :
    ∀ (chunks : List (List LogLine)) (last : List LogLine),
      List.Chain' (fun a b => ∃ t, a ++ t = b) chunks →
      (∀ c, chunks.head? = some c → ∃ t, last ++ t = c) →
      (∀ c ∈ chunks, ∀ l ∈ c, lineOk l = true) →
      (∀ l ∈ last, lineOk l = true ∧ stopLine l = false) →
      (∃ c ∈ chunks, ∃ l ∈ c, stopLine l = true) →
      ∀ hne : chunks ≠ [],
        Follow (chunks.map Except.ok) last =
          .finished (linesEvents ((upToStop (chunks.getLast hne)).drop last.length)) := by
  intro chunks
  induction chunks with
  | nil =>
    intro last _ _ _ _ hstop hne
    exact absurd rfl hne
  | cons c rest ih =>
    intro last hchain hpre hok hlastok hstop hne
    obtain ⟨t, ht⟩ := hpre c rfl
    simp only [List.map_cons]
    rw [Follow]
    by_cases heq : c = last
    · -- unchanged fetch: skip and continue
      rw [if_pos heq]
      have hstop_rest : ∃ d ∈ rest, ∃ l ∈ d, stopLine l = true := by
        rcases hstop with ⟨d, hd, l, hl, hsl⟩
        rcases List.mem_cons.mp hd with rfl | hd2
        · exact absurd hsl (by simp [(hlastok l (heq ▸ hl)).2])
        · exact ⟨d, hd2, l, hl, hsl⟩
      have hrest_ne : rest ≠ [] := by
        rcases hstop_rest with ⟨d, hd, -⟩
        intro hcontr
        rw [hcontr] at hd
        simp at hd
      have hpre2 : ∀ c2, rest.head? = some c2 → ∃ t2, last ++ t2 = c2 := by
        intro c2 hc2
        have hrel := (List.chain'_cons'.mp hchain).1 c2 hc2
        obtain ⟨t2, ht2⟩ := hrel
        exact ⟨t2, heq ▸ ht2⟩
      rw [ih last (List.Chain'.tail hchain) hpre2
        (fun d hd => hok d (by simp [hd])) hlastok hstop_rest hrest_ne]
      congr 2
      rw [List.getLast_cons hrest_ne]
    · -- new content: render the unseen suffix
      rw [if_neg heq]
      have hc_mem : c ∈ c :: rest := by simp
      have hok_c : ∀ l ∈ c, lineOk l = true := hok c hc_mem
      obtain ⟨w, hw⟩ := chain_getLast_extends (c :: rest) hchain hne c hc_mem
      have hdrop : c.drop last.length = t := by
        rw [← ht, List.drop_left]
      rw [hdrop]
      dsimp only
      have hok_t : ∀ l ∈ t, lineOk l = true := by
        intro l hl
        exact hok_c l (by rw [← ht]; simp [hl])
      by_cases hstopt : ∃ l ∈ t, stopLine l = true
      · -- the suffix carries the stop signal: render it and finish
        rw [renderLines_upToStop t hok_t hstopt]
        dsimp only
        have hS : upToStop ((c :: rest).getLast hne) = last ++ upToStop t := by
          rw [← hw]
          rw [upToStop_append_stop c w (by
            rcases hstopt with ⟨l, hl, hsl⟩
            exact ⟨l, by rw [← ht]; simp [hl], hsl⟩)]
          rw [← ht]
          rw [upToStop_append_no_stop last t (fun l hl => (hlastok l hl).2)]
        rw [hS, List.drop_left]
      · -- no stop yet: render the suffix and keep following
        have hstopt2 : ∀ l ∈ t, lineOk l = true ∧ stopLine l = false := by
          intro l hl
          refine ⟨hok_t l hl, ?_⟩
          by_contra hcontr
          exact hstopt ⟨l, hl, by simpa using hcontr⟩
        rw [renderLines_no_stop t hstopt2]
        dsimp only
        have hcnostop : ∀ l ∈ c, lineOk l = true ∧ stopLine l = false := by
          intro l hl
          rw [← ht] at hl
          rcases List.mem_append.mp hl with hl2 | hl2
          · exact hlastok l hl2
          · exact hstopt2 l hl2
        have hstop_rest : ∃ d ∈ rest, ∃ l ∈ d, stopLine l = true := by
          rcases hstop with ⟨d, hd, l, hl, hsl⟩
          rcases List.mem_cons.mp hd with rfl | hd2
          · exact absurd hsl (by simp [(hcnostop l hl).2])
          · exact ⟨d, hd2, l, hl, hsl⟩
        have hrest_ne : rest ≠ [] := by
          rcases hstop_rest with ⟨d, hd, -⟩
          intro hcontr
          rw [hcontr] at hd
          simp at hd
        have hpre2 : ∀ c2, rest.head? = some c2 → ∃ t2, c ++ t2 = c2 :=
          fun c2 hc2 => (List.chain'_cons'.mp hchain).1 c2 hc2
        rw [ih c (List.Chain'.tail hchain) hpre2
          (fun d hd => hok d (by simp [hd])) hcnostop hstop_rest hrest_ne]
        have hgetLast : (c :: rest).getLast hne = rest.getLast hrest_ne :=
          List.getLast_cons hrest_ne
        have hw2 : c ++ w = rest.getLast hrest_ne := by rw [← hgetLast, hw]
        have hS : upToStop (rest.getLast hrest_ne) = c ++ upToStop w := by
          rw [← hw2, upToStop_append_no_stop c w (fun l hl => (hcnostop l hl).2)]
        rw [hgetLast, hS]
        have e1 : (c ++ upToStop w).drop last.length = t ++ upToStop w := by
          rw [← ht, List.append_assoc, List.drop_left]
        have e2 : (c ++ upToStop w).drop c.length = upToStop w := List.drop_left c _
        rw [e1, e2, linesEvents_append]

/-- C9: given fetch results that monotonically append records (each fetch
extends the previous one), whose lines are well formed (renderable without
error), and that eventually include a choice with finish_reason "stop", the
follow loop terminates with success and its output trace equals the
one-shot trace of the stream's prefix up to and including the first stop
record — every record up to the stop is rendered exactly once, in append
order, and no previously emitted prefix is re-rendered (only each fetch's
unseen suffix is passed to Render); a fetcher error terminates the loop
immediately with that error. -/
theorem follow_convergence (chunks : List (List LogLine)) (hne : chunks ≠ [])
    (hchain : List.Chain' (fun a b => ∃ t, a ++ t = b) chunks)
    (hok : ∀ c ∈ chunks, ∀ l ∈ c, lineOk l = true)
    (hstop : ∃ c ∈ chunks, ∃ l ∈ c, stopLine l = true) :
    Follow (chunks.map Except.ok) [] =
      .finished (linesEvents (upToStop (chunks.getLast hne))) ∧
    (∀ (msg : String) (fetches : List (Except String (List LogLine))) (last : List LogLine),
      Follow (.error msg :: fetches) last = .failed [] msg) := by
  constructor
  · have := follow_go chunks [] hchain (fun c _ => ⟨c, by simp⟩) hok (by simp) hstop hne
    simpa using this
  · intro msg fetches last
    rfl

/-- Witness for C9 on a one-fetch stream whose single record is an
assistant message with the stop signal. -/
theorem follow_convergence_witness :
    (sampleStream ≠ []) ∧
    List.Chain' (fun a b => ∃ t, a ++ t = b) sampleStream ∧
    (∀ c ∈ sampleStream, ∀ l ∈ c, lineOk l = true) ∧
    (∃ c ∈ sampleStream, ∃ l ∈ c, stopLine l = true) ∧
    (Follow (sampleStream.map Except.ok) [] =
        .finished (linesEvents (upToStop (sampleStream.getLast (by decide)))) ∧
      (∀ (msg : String) (fetches : List (Except String (List LogLine))) (last : List LogLine),
        Follow (.error msg :: fetches) last = .failed [] msg)) :=
  ⟨by decide, by simp [sampleStream], by decide, by decide,
    follow_convergence sampleStream (by decide) (by simp [sampleStream]) (by decide) (by decide)⟩

/-- Witness for C4: one "pull" session with ResourceID 7 and a response
containing its PR node keyed "7". -/
theorem hydration_join_witness :
    (([c4Session] : List RawSession)[0]? = some c4Session) ∧
    ((hydrateSessionPullRequestsAndUsers [c4Session] [c4Node]).length =
        ([c4Session] : List RawSession).length ∧
      ∃ t, (hydrateSessionPullRequestsAndUsers [c4Session] [c4Node])[0]? = some t ∧
        t.id = c4Session.id ∧ t.resourceType = c4Session.resourceType ∧
        t.resourceID = c4Session.resourceID ∧
        ((∃ pr, RespNode.pullRequest pr ∈ [c4Node] ∧
            pr.fullDatabaseID = toString c4Session.resourceID) →
          ∃ prOut, t.pullRequest = some prOut ∧
            prOut.fullDatabaseID = toString c4Session.resourceID) ∧
        ((∀ pr, RespNode.pullRequest pr ∈ [c4Node] →
            pr.fullDatabaseID ≠ toString c4Session.resourceID) → t.pullRequest = none) ∧
        ((∀ u, RespNode.user u ∈ [c4Node] → u.databaseID ≠ c4Session.userID) →
          t.user = none)) :=
  ⟨rfl, hydration_join [c4Session] [c4Node] 0 c4Session rfl⟩

end AgentTask
